import Mathlib

/-!
# Verification of the MSP432E401Y command-shell core (v2.0.x)

Shallow embedding of the interpreter core of the repository's latest shell
version (`src/unnamed/part_000`): the command dispatcher (`handleLine`), the
register machine (`cmd_reg` and its operand parsers), the conditional branch
(`cmd_if`), the script store (`cmd_script`), the callback/ticker schedulers
(`cmd_callback`, `cmd_ticker`, and the polling loop in `mainThread`), and the
payload executor (`execPayload`).

Modelling conventions:
* C strings are `List Char` (no NUL terminator; the terminator is the end of
  the list).  `char *` versus empty-string distinctions collapse: every
  handler in the source treats a `NULL` argument pointer and an empty string
  identically, so both are modelled as `[]`.
* Machine integers are `Int` with explicit wrapping (`toInt32`, `toUInt32n`)
  at the points where the C types (`int32_t`, `uint32_t`) wrap.
* Raw memory is a read-only environment `Nat → Int` (the core only ever reads
  memory: `@addr` operands and `-memr`).  Each dereference is recorded as an
  explicit `Ev.memRead` event so that range-check claims are observable.
* UART output (`putStr`/`putDec`) is recorded as `Ev.out` events, one per
  call, with the exact diagnostic strings of the source.  Large informational
  dumps whose text no claim inspects (help text, `-about`, the register /
  script / callback / ticker listing loops, the error-counter dump) are
  abstracted as dedicated structureless events; hardware side effects of the
  out-of-core commands `-gpio`/`-timer` (spec §1 declares them external
  collaborators) are likewise recorded as events and touch no core state.
-/

/-! ## C character classification (C locale) -/

/-- C `isspace`. -/
def cIsSpace (c : Char) : Bool :=
  c = ' ' || c = '\t' || c = '\n' || c = '\x0b' || c = '\x0c' || c = '\r'

/-- C `isdigit`. -/
def cIsDigit (c : Char) : Bool := '0' ≤ c && c ≤ '9'

/-- C `isxdigit`. -/
def cIsXdigit (c : Char) : Bool :=
  ('0' ≤ c && c ≤ '9') || ('a' ≤ c && c ≤ 'f') || ('A' ≤ c && c ≤ 'F')

/-- Numeric value of a digit character (hex digits included). -/
def digitVal (c : Char) : Nat :=
  if '0' ≤ c && c ≤ '9' then c.toNat - '0'.toNat
  else if 'a' ≤ c && c ≤ 'f' then c.toNat - 'a'.toNat + 10
  else if 'A' ≤ c && c ≤ 'F' then c.toNat - 'A'.toNat + 10
  else 0

/-- C `tolower` restricted to ASCII letters (what `strcasecmp` uses). -/
def lowerC (c : Char) : Char :=
  if 'A' ≤ c && c ≤ 'Z' then Char.ofNat (c.toNat + 32) else c

/-- C `strcasecmp s t == 0`. -/
def strcaseEq (s t : List Char) : Bool := s.map lowerC = t.map lowerC

/-! ## 32-bit machine arithmetic -/

/-- Wrap an unbounded integer into the `int32_t` range (two's complement). -/
def toInt32 (v : Int) : Int := (v + 2 ^ 31) % 2 ^ 32 - 2 ^ 31

/-- Reinterpret an `int32_t` value as `uint32_t` (cast in
`parse_memory_address`: `(uint32_t)registers[r]`). -/
def toUInt32n (v : Int) : Nat := (v % 2 ^ 32).toNat

/-- C `long` saturation used by `strtol` on overflow (32-bit `long` on this
target). -/
def clampLong (v : Int) : Int := max (-(2 ^ 31)) (min v (2 ^ 31 - 1))

/-- C `unsigned long` saturation used by `strtoul` (32-bit). -/
def clampULong (n : Nat) : Nat := min n (2 ^ 32 - 1)

/-! ## C number parsing (`strtol`, `strtoul`, `atoi`)

Each parser returns the parsed value together with the *remainder of the
input from the final `endptr` position*: if no digits were consumed the
remainder is the original string (C: "stores the original value of nptr in
endptr"). -/

/-- Accumulate the value of a digit string in base `b`. -/
def natOfDigits (b : Nat) (ds : List Char) : Nat :=
  ds.foldl (fun a c => a * b + digitVal c) 0

/-- The digit predicate for a numeric base (8, 10 or 16). -/
def isBaseDigit (b : Nat) (c : Char) : Bool :=
  if b = 16 then cIsXdigit c
  else if b = 8 then '0' ≤ c && c ≤ '7'
  else cIsDigit c

/-- Core of `strtol`/`strtoul`: skip `isspace`, read an optional sign, detect
the base (for base 0: `0x` hex / leading-`0` octal / decimal; for base 16 an
optional `0x` prefix), and consume digits.  Returns
`(negative, magnitude, remainder-from-endptr)`. -/
def strtolRaw (base : Nat) (l : List Char) : Bool × Nat × List Char :=
  let l1 := l.dropWhile cIsSpace
  let neg := l1.headD ' ' = '-'
  let l2 := if l1.headD ' ' = '-' || l1.headD ' ' = '+' then l1.tail else l1
  let hexPfx := l2.headD ' ' = '0' &&
    (l2.tail.headD ' ' = 'x' || l2.tail.headD ' ' = 'X') &&
    cIsXdigit (l2.tail.tail.headD ' ')
  let b := if base = 0 then (if hexPfx then 16 else if l2.headD ' ' = '0' then 8 else 10)
           else base
  let l3 := if (base = 0 || base = 16) && hexPfx then l2.tail.tail else l2
  let digits := l3.takeWhile (isBaseDigit b)
  if digits.isEmpty then (false, 0, l)
  else (neg, natOfDigits b digits, l3.drop digits.length)

/-- C `strtol(l, &endptr, base)` with 32-bit `long`: value plus the remainder
of the string from `endptr`. -/
def strtol (base : Nat) (l : List Char) : Int × List Char :=
  let (neg, m, rest) := strtolRaw base l
  (clampLong (if neg then -(m : Int) else (m : Int)), rest)

/-- C `strtoul(l, &endptr, base)` with 32-bit `unsigned long`. -/
def strtoul (base : Nat) (l : List Char) : Nat × List Char :=
  let (neg, m, rest) := strtolRaw base l
  let v := clampULong m
  (if neg then (2 ^ 32 - v) % 2 ^ 32 else v, rest)

/-- C `atoi`. -/
def atoi (l : List Char) : Int := (strtol 10 l).1

/-! ## C string helpers -/

/-- C `strchr(l, ch)`: split at the first occurrence of `ch`; `some (pre,
post)` with `l = pre ++ ch :: post` and `ch ∉ pre`. -/
def splitAtChar (ch : Char) : List Char → Option (List Char × List Char)
  | [] => none
  | c :: r =>
    if c = ch then some ([], r)
    else (splitAtChar ch r).map (fun p => (c :: p.1, p.2))

/-- `sscanf`'s `%Ns` body: take at most `n` leading non-`isspace`
characters. -/
def takeTok : Nat → List Char → List Char
  | _, [] => []
  | 0, _ => []
  | n + 1, c :: r => if cIsSpace c then [] else c :: takeTok n r

/-- One `%Ns` conversion of `sscanf`: skip `isspace`, then read at most `n`
non-space characters; fails (conversion count stops) only at end of input. -/
def scanTok (n : Nat) (l : List Char) : Option (List Char × List Char) :=
  let l1 := l.dropWhile cIsSpace
  match l1 with
  | [] => none
  | _ =>
    let t := takeTok n l1
    some (t, l1.drop t.length)

/-- Strip trailing `isspace` characters (the `while(len > 0 && isspace(...))
len--` loop of `cmd_if`). -/
def rstrip (l : List Char) : List Char := (l.reverse.dropWhile cIsSpace).reverse

/-- Strip surrounding `isspace` characters. -/
def trimC (l : List Char) : List Char := (rstrip l).dropWhile cIsSpace

example : atoi ("  -42x".data) = -42 := by decide
example : strtol 0 ("0x10".data) = (16, []) := by decide
example : strtol 0 ("x10".data) = (0, "x10".data) := by decide
example : strtoul 16 ("f0000000".data) = (0xf0000000, []) := by decide
example : scanTok 7 ("  div r3 #0".data) = some ("div".data, " r3 #0".data) := by decide
example : splitAtChar '?' ("a ? b".data) = some ("a ".data, " b".data) := by decide
example : trimC ("  hi ho  ".data) = "hi ho".data := by decide

/-! ## Commands and observable events -/

/-- The fixed command table of `handleLine` (the 13 dispatch targets). -/
inductive Cmd
  | help | about | gpio | timer | callback | ticker | error | print
  | memr | reg | script | rem | cif
  deriving DecidableEq, Repr

/-- Observable events of one interpreter step: exact UART output for the core
diagnostics/echoes, raw-memory reads, script-table accesses (with the raw,
possibly out-of-range index), handler dispatches, and abstract markers for the
out-of-core text dumps and hardware commands. -/
inductive Ev
  | out (s : List Char)                -- a putStr / snprintf+putStr call
  | memRead (addr : Nat)               -- *(int32_t*)addr / *(uint32_t*)addr
  | slotRead (i : Int)                 -- read of scriptLines[i]
  | slotWrite (i : Int)                -- write into scriptLines[i]
  | handler (c : Cmd) (args : List Char) -- handleLine dispatched c with args
  | helpText | aboutText | regDump | scriptsDump | cbDump | tickerDump
  | errorDump                          -- informational dumps (text not modelled)
  | gpioOp (args : List Char)          -- cmd_gpio body (out-of-core, spec §1)
  | timerOp (args : List Char)         -- cmd_timer body (out-of-core, spec §1)
  | fuelOut                            -- recursion fuel exhausted (model artefact)
  deriving DecidableEq, Repr

/-- `"\r\n"`. -/
def crlf : List Char := '\r' :: '\n' :: []

/-- `putDec` / `%d` / `%ld` rendering. -/
def decStr (v : Int) : List Char := (toString v).data

/-! ## Register machine (`cmd_reg`) -/

/-- `NUM_REGISTERS`. -/
def NUM_REGISTERS : Nat := 32

/-- Read of `registers[n]` (callers below only produce in-range indices). -/
def regGet (regs : List Int) (n : Nat) : Int := regs.getD n 0

/-- `parse_register`: `r<digits>` / `R<digits>` with `atoi` (no trailing-junk
check) and range check against `[0, 32)`. -/
def parse_register (tok : List Char) : Option Nat :=
  if tok.headD ' ' = 'r' || tok.headD ' ' = 'R' then
    let n := atoi tok.tail
    if 0 ≤ n ∧ n < NUM_REGISTERS then some n.toNat else none
  else none

/-- `parse_immediate`: `#<decimal>` or `#x<hex>`/`#X<hex>`, requiring the
whole token to be consumed (`*endptr == '\0'`). -/
def parse_immediate (tok : List Char) : Option Int :=
  if tok.headD ' ' = '#' then
    let r := tok.tail
    if r.headD ' ' = 'x' || r.headD ' ' = 'X' then
      let (v, rest) := strtol 16 r.tail
      if rest = [] then some v else none
    else
      let (v, rest) := strtol 10 r
      if rest = [] then some v else none
  else none

/-- `parse_memory_address`: `@r<N>` (indirect through the register content,
cast to `uint32_t`), `@x<hex>`/`@X<hex>` (direct hex), or `@<decimal>`
(direct decimal); the direct forms use `strtoul` with a `NULL` endptr (no
trailing-junk check). -/
def parse_memory_address (regs : List Int) (tok : List Char) : Option Nat :=
  if tok.headD ' ' = '@' then
    let r := tok.tail
    if r.headD ' ' = 'r' || r.headD ' ' = 'R' then
      match parse_register r with
      | some n => some (toUInt32n (regGet regs n))
      | none => none
    else if r.headD ' ' = 'x' || r.headD ' ' = 'X' then some (strtoul 16 r.tail).1
    else some (strtoul 10 r).1
  else none

/-- `addrOK`: the permitted address ranges (on-chip flash and SRAM). -/
def addrOK (a : Nat) : Bool := a < 0x00080000 || (0x20000000 ≤ a && a < 0x20080000)

/-- `get_operand_value`: try register, then immediate, then memory operand.
A memory operand is dereferenced **without** any `addrOK` check (the source
reads `*(int32_t*)addr` directly); the read is recorded as an event. -/
def get_operand_value (regs : List Int) (mem : Nat → Int) (tok : List Char) :
    Option (Int × List Ev) :=
  match parse_register tok with
  | some r => some (regGet regs r, [])
  | none =>
    match parse_immediate tok with
    | some v => some (v, [])
    | none =>
      match parse_memory_address regs tok with
      | some a => some (toInt32 (mem a), [Ev.memRead a])
      | none => none

example : parse_register ("r31".data) = some 31 := by decide
example : parse_register ("r32".data) = none := by decide
example : parse_register ("r5x".data) = some 5 := by decide
example : parse_immediate ("#xFF".data) = some 255 := by decide
example : parse_immediate ("#".data) = some 0 := by decide
example : parse_memory_address [] ("@xf0000000".data) = some 0xf0000000 := by decide
example : addrOK 0x20000000 = true := by decide
example : addrOK 0xf0000000 = false := by decide

/-! ## Callback and ticker entries and their per-trigger transitions

`mainThread` services the flags in loop context (source lines 749-783).  The
two functions below are the per-entry state transitions with the payload
dispatch abstracted as the returned `Bool` ("fired"): they are exact for every
payload that does not reconfigure the very entry being serviced (the full
re-entrant model, `serviceTickers` below, performs the dispatch and re-reads
the entry afterwards, exactly as the C does). -/

/-- `struct CbEntry`. -/
structure CbEntry where
  active : Bool
  remaining : Int
  payload : List Char
  deriving DecidableEq, Repr

/-- `struct TickerEntry`.  `delay_ticks`, `period_ticks` and `ticks_left` are
`uint32_t` (modelled as `Nat`); `count` is `int32_t`. -/
structure TickerEntry where
  active : Bool
  delay_ticks : Nat
  period_ticks : Nat
  count : Int
  payload : List Char
  ticks_left : Nat
  deriving DecidableEq, Repr

/-- One serviced trigger of a callback entry
(`if(cb[k].active){ execPayload(...); if(cb[k].remaining>0 &&
--cb[k].remaining==0) cb[k].active=false; }`). -/
def cbFire (e : CbEntry) : CbEntry × Bool :=
  if e.active then
    if 0 < e.remaining ∧ e.remaining - 1 = 0 then
      ({ e with remaining := 0, active := false }, true)
    else if 0 < e.remaining then
      ({ e with remaining := e.remaining - 1 }, true)
    else (e, true)
  else (e, false)

/-- One observed tick of a ticker entry (the loop body at source lines
769-781): decrement a nonzero countdown, then fire when the countdown is
zero, then apply the repeat-count policy and reload from `period_ticks`. -/
def tickerTick (e : TickerEntry) : TickerEntry × Bool :=
  if e.active then
    let tl := if 0 < e.ticks_left then e.ticks_left - 1 else e.ticks_left
    if tl = 0 then
      if 0 < e.count ∧ e.count - 1 = 0 then
        ({ e with ticks_left := tl, count := e.count - 1, active := false }, true)
      else
        ({ e with ticks_left := e.period_ticks,
                  count := if 0 < e.count then e.count - 1 else e.count }, true)
    else ({ e with ticks_left := tl }, false)
  else (e, false)

/-- The entry state after a tick on which the entry fired (`tickerTick`'s
fire branch, as a standalone function of the pre-tick entry). -/
def afterFire (e : TickerEntry) : TickerEntry :=
  if 0 < e.count ∧ e.count - 1 = 0 then
    { e with ticks_left := 0, count := e.count - 1, active := false }
  else
    { e with ticks_left := e.period_ticks,
             count := if 0 < e.count then e.count - 1 else e.count }

/-- Iterate `n` serviced triggers of a callback entry, recording for each
whether the payload was dispatched. -/
def runCb (e : CbEntry) : Nat → CbEntry × List Bool
  | 0 => (e, [])
  | n + 1 =>
    let (e1, f) := cbFire e
    let (e2, l) := runCb e1 n
    (e2, f :: l)

/-- Iterate `n` observed ticks of a ticker entry, recording for each tick
whether the entry fired. -/
def runTicksB (e : TickerEntry) : Nat → TickerEntry × List Bool
  | 0 => (e, [])
  | n + 1 =>
    let (e1, f) := tickerTick e
    let (e2, l) := runTicksB e1 n
    (e2, f :: l)

/-- 1-based positions of the `true` entries of a fire trace. -/
def firePositions : List Bool → List Nat
  | [] => []
  | b :: rest => (if b then [1] else []) ++ (firePositions rest).map (· + 1)

example :
    firePositions (runTicksB
      { active := true, delay_ticks := 0, period_ticks := 10, count := 3,
        payload := "-print x".data, ticks_left := 0 } 25).2 = [1, 11, 21] := by decide
example :
    (runTicksB
      { active := true, delay_ticks := 0, period_ticks := 10, count := 3,
        payload := "-print x".data, ticks_left := 0 } 21).1.active = false := by decide
example :
    firePositions (runTicksB
      { active := true, delay_ticks := 1, period_ticks := 10, count := 3,
        payload := [], ticks_left := 1 } 25).2 = [1, 11, 21] := by decide
example :
    firePositions (runTicksB
      { active := true, delay_ticks := 0, period_ticks := 0, count := 2,
        payload := [], ticks_left := 0 } 5).2 = [1, 2] := by decide
example : (runCb { active := true, remaining := 3, payload := [] } 5).2 =
    [true, true, true, false, false] := by decide

/-- The armed entry written by `cmd_ticker` (source lines 641-647): `delay`
and `period` are `int` values stored into `uint32_t` fields, the payload is
truncated to 47 characters, and the countdown starts at the initial delay. -/
def armTicker (delay period : Int) (cnt : Int) (pay : List Char) : TickerEntry :=
  { active := true, delay_ticks := toUInt32n delay, period_ticks := toUInt32n period,
    count := cnt, payload := pay.take 47, ticks_left := toUInt32n delay }

/-- `cmd_callback` arming/disabling action on the 3-entry table: a zero count
only clears `active`; a nonzero count arms the entry with a 63-character
payload truncation. -/
def cbConfigure (cbs : List CbEntry) (idx : Nat) (cnt : Int) (pay : List Char) :
    List CbEntry :=
  if cnt = 0 then
    cbs.set idx { cbs.getD idx ⟨false, 0, []⟩ with active := false }
  else
    cbs.set idx { active := true, remaining := cnt, payload := pay.take 63 }

/-- `cmd_ticker` arming/disabling action on the 16-entry table. -/
def tickerConfigure (ts : List TickerEntry) (idx : Nat) (delay period cnt : Int)
    (pay : List Char) : List TickerEntry :=
  if cnt = 0 then
    ts.set idx { ts.getD idx ⟨false, 0, 0, 0, [], 0⟩ with active := false }
  else
    ts.set idx (armTicker delay period cnt pay)

/-! ### Scheduler lemmas -/

lemma cbFire_inactive {e : CbEntry} (h : e.active = false) : cbFire e = (e, false) := by
  simp [cbFire, h]

lemma runCb_inactive {e : CbEntry} (h : e.active = false) :
    ∀ n, runCb e n = (e, List.replicate n false) := by
  intro n
  induction n with
  | zero => simp [runCb]
  | succ n ih => simp [runCb, cbFire_inactive h, ih, List.replicate_succ]

/-- A callback entry with negative remaining count fires on every serviced
trigger and its state never changes. -/
lemma runCb_neg {e : CbEntry} (ha : e.active = true) (hr : e.remaining < 0) :
    ∀ n, runCb e n = (e, List.replicate n true) := by
  have h1 : ¬(0 < e.remaining ∧ e.remaining - 1 = 0) := by omega
  have h2 : ¬(0 < e.remaining) := by omega
  have hfire : cbFire e = (e, true) := by simp [cbFire, ha, h1, h2]
  intro n
  induction n with
  | zero => simp [runCb]
  | succ n ih => simp [runCb, hfire, ih, List.replicate_succ]

/-- A callback entry armed with positive count `K` dispatches `min n K` times
over `n` serviced triggers and is inactive exactly once `K ≤ n`. -/
lemma runCb_pos :
    ∀ (n : Nat) (K : Nat) (e : CbEntry), e.active = true → e.remaining = (K : Int) → 0 < K →
      (runCb e n).2.count true = min n K ∧
      ((runCb e n).1.active = false ↔ K ≤ n) := by
  intro n
  induction n with
  | zero =>
    intro K e ha hr hK
    refine ⟨by simp [runCb], ?_⟩
    simp [runCb, ha]
    omega
  | succ n ih =>
    intro K e ha hr hK
    rcases Nat.lt_or_ge K 2 with hK1 | hK2
    · have hKe : K = 1 := by omega
      subst hKe
      have hc : 0 < e.remaining ∧ e.remaining - 1 = 0 := by omega
      have hfire : cbFire e = ({ e with remaining := 0, active := false }, true) := by
        simp only [cbFire, ha, if_true]
        rw [if_pos hc]
      have hrest := runCb_inactive (e := { e with remaining := 0, active := false })
        (by simp) n
      simp [runCb, hfire, hrest, List.count_replicate]
    · have hc1 : ¬(0 < e.remaining ∧ e.remaining - 1 = 0) := by omega
      have hc2 : 0 < e.remaining := by omega
      have hfire : cbFire e = ({ e with remaining := e.remaining - 1 }, true) := by
        simp only [cbFire, ha, if_true]
        rw [if_neg hc1, if_pos hc2]
      have hre : ({ e with remaining := e.remaining - 1 } : CbEntry).remaining
          = ((K - 1 : Nat) : Int) := by
        simp [hr]; omega
      have ihn := ih (K - 1) { e with remaining := e.remaining - 1 } (by simp [ha]) hre
        (by omega)
      simp only [runCb, hfire]
      refine ⟨?_, ?_⟩
      · simp only [List.count_cons]
        rw [ihn.1]
        simp
        omega
      · rw [ihn.2]
        omega

lemma tickerTick_inactive {e : TickerEntry} (h : e.active = false) :
    tickerTick e = (e, false) := by
  simp [tickerTick, h]

lemma runTicksB_inactive {e : TickerEntry} (h : e.active = false) :
    ∀ n, runTicksB e n = (e, List.replicate n false) := by
  intro n
  induction n with
  | zero => simp [runTicksB]
  | succ n ih => simp [runTicksB, tickerTick_inactive h, ih, List.replicate_succ]

/-- On a tick where the countdown is already ≤ 1, an active entry fires. -/
lemma tickerTick_fire {e : TickerEntry} (ha : e.active = true) (ht : e.ticks_left ≤ 1) :
    tickerTick e = (afterFire e, true) := by
  obtain ⟨act, d, p, cnt, pay, tl⟩ := e
  subst ha
  interval_cases tl <;>
    · simp only [tickerTick, afterFire]
      norm_num
      split_ifs <;> rfl

lemma tickerTick_countdown {e : TickerEntry} (ha : e.active = true)
    (ht : 2 ≤ e.ticks_left) :
    tickerTick e = ({ e with ticks_left := e.ticks_left - 1 }, false) := by
  obtain ⟨act, d, p, cnt, pay, tl⟩ := e
  simp only [TickerEntry.active] at ha
  simp only [TickerEntry.ticks_left] at ht
  subst ha
  simp only [tickerTick, if_pos rfl]
  have h1 : (0 < tl) = True := by simp; omega
  have h2 : tl - 1 = 0 ↔ False := by simp; omega
  simp [h1, h2]

/-- `afterFire` does not depend on the countdown field. -/
lemma afterFire_ticksLeft (e : TickerEntry) (x : Nat) :
    afterFire { e with ticks_left := x } = afterFire e := rfl

/-- Splitting a tick run. -/
lemma runTicksB_append (a : Nat) :
    ∀ (b : Nat) (e : TickerEntry),
      runTicksB e (a + b) =
        ((runTicksB (runTicksB e a).1 b).1,
          (runTicksB e a).2 ++ (runTicksB (runTicksB e a).1 b).2) := by
  induction a with
  | zero => intro b e; simp [runTicksB]
  | succ a ih =>
    intro b e
    have hshift : a + 1 + b = (a + b) + 1 := by omega
    rw [hshift]
    simp [runTicksB, ih]

/-- An active entry with countdown `t` runs silently for `max t 1 - 1` ticks
and fires on tick `max t 1`, ending in the `afterFire` state. -/
lemma runTicksB_to_fire :
    ∀ (t : Nat) (e : TickerEntry), e.active = true → e.ticks_left = t →
      runTicksB e (max t 1) =
        (afterFire e, List.replicate (max t 1 - 1) false ++ [true]) := by
  intro t
  induction t with
  | zero =>
    intro e ha ht
    have hfire := tickerTick_fire ha (by omega)
    simp [runTicksB, hfire]
  | succ t ih =>
    intro e ha ht
    rcases Nat.eq_zero_or_pos t with ht0 | htpos
    · subst ht0
      have hfire := tickerTick_fire ha (by omega)
      simp [runTicksB, hfire]
    · have hmax : max (t + 1) 1 = t + 1 := by omega
      have hcd := tickerTick_countdown ha (by omega)
      have hstep := ih { e with ticks_left := e.ticks_left - 1 } (by simp [ha]) (by simp [ht])
      have hmax2 : max t 1 = t := by omega
      rw [hmax2] at hstep
      rw [hmax]
      simp only [runTicksB, hcd, hstep, afterFire_ticksLeft]
      have hrep : t + 1 - 1 = (t - 1) + 1 := by omega
      rw [hrep, List.replicate_succ]
      simp

lemma firePositions_append (l1 l2 : List Bool) :
    firePositions (l1 ++ l2) =
      firePositions l1 ++ (firePositions l2).map (· + l1.length) := by
  induction l1 with
  | nil => simp [firePositions]
  | cons b r ih =>
    have hfun : ((fun x => x + 1) ∘ (fun x : Nat => x + r.length))
        = (fun x : Nat => x + (r.length + 1)) := by
      funext x
      simp [Function.comp]
      omega
    simp only [List.cons_append, firePositions, ih, List.map_append, List.map_map,
      List.length_cons, List.append_assoc, hfun]
    rw [show r.append l2 = r ++ l2 from rfl, ih, List.map_append, List.map_map, hfun]

lemma firePositions_replicate_false (k : Nat) :
    firePositions (List.replicate k false) = [] := by
  induction k with
  | zero => rfl
  | succ k ih => simp [List.replicate_succ, firePositions, ih]

/-- The first fire of an active entry with countdown `t` happens on tick
`max t 1`, in any run long enough to contain it. -/
lemma firstFire_pos {e : TickerEntry} {n : Nat} (ha : e.active = true)
    (hn : max e.ticks_left 1 ≤ n) :
    (firePositions (runTicksB e n).2).head? = some (max e.ticks_left 1) := by
  obtain ⟨m, hm⟩ : ∃ m, n = max e.ticks_left 1 + m := ⟨n - max e.ticks_left 1, by omega⟩
  subst hm
  rw [runTicksB_append]
  rw [runTicksB_to_fire e.ticks_left e ha rfl]
  rw [firePositions_append, firePositions_append]
  simp [firePositions_replicate_false, firePositions]

/-- Safety: an active entry with positive repeat count `c` never fires more
than `c` times, over any number of observed ticks. -/
lemma runTicksB_count_le :
    ∀ (n : Nat) (e : TickerEntry), e.active = true → 0 < e.count →
      ((runTicksB e n).2.count true : Int) ≤ e.count := by
  intro n
  induction n with
  | zero => intro e _ hc; simp [runTicksB]; omega
  | succ n ih =>
    intro e ha hc
    rcases Nat.lt_or_ge e.ticks_left 2 with htl | htl
    · have hfire := tickerTick_fire ha (by omega)
      rcases eq_or_lt_of_le hc with hc1 | hc2
      · have hcnd : 0 < e.count ∧ e.count - 1 = 0 := by omega
        have haf : afterFire e =
            { e with ticks_left := 0, count := e.count - 1, active := false } := by
          rw [afterFire, if_pos hcnd]
        have hrest := runTicksB_inactive
          (e := { e with ticks_left := 0, count := e.count - 1, active := false })
          (by simp) n
        simp [runTicksB, hfire, haf, hrest, List.count_replicate]
        omega
      · have hcnd : ¬(0 < e.count ∧ e.count - 1 = 0) := by omega
        have haf : afterFire e =
            { e with ticks_left := e.period_ticks, count := e.count - 1 } := by
          rw [afterFire, if_neg hcnd, if_pos hc]
        have ihn := ih { e with ticks_left := e.period_ticks, count := e.count - 1 }
          (by simp [ha]) (by simp; omega)
        simp only [runTicksB, hfire, haf, List.count_cons]
        simp at ihn ⊢
        omega
    · have hcd := tickerTick_countdown ha (by omega)
      have ihn := ih { e with ticks_left := e.ticks_left - 1 } (by simp [ha]) (by simp [hc])
      simp only [runTicksB, hcd, List.count_cons]
      simp at ihn ⊢
      omega

/-- Liveness: an active entry with positive repeat count `K` fires exactly
`K` times within `max ticks_left 1 + (K-1) * max period 1` observed ticks and
is then inactive. -/
lemma runTicksB_exact (K : Nat) :
    ∀ (e : TickerEntry), e.active = true → e.count = (K : Int) → 0 < K →
      (runTicksB e (max e.ticks_left 1 + (K - 1) * max e.period_ticks 1)).2.count true = K ∧
      (runTicksB e (max e.ticks_left 1 + (K - 1) * max e.period_ticks 1)).1.active = false := by
  induction K with
  | zero => intro e _ _ h; omega
  | succ K ihK =>
    intro e ha hc _
    rcases Nat.eq_zero_or_pos K with hK0 | hKpos
    · subst hK0
      have hcnd : 0 < e.count ∧ e.count - 1 = 0 := by omega
      have haf : afterFire e =
          { e with ticks_left := 0, count := e.count - 1, active := false } := by
        rw [afterFire, if_pos hcnd]
      have hrun := runTicksB_to_fire e.ticks_left e ha rfl
      simp only [Nat.add_sub_cancel, Nat.zero_mul, Nat.add_zero]
      rw [hrun, haf]
      simp [List.count_replicate]
    · have hcnd : ¬(0 < e.count ∧ e.count - 1 = 0) := by omega
      have hpos : (0 : Int) < e.count := by omega
      have haf : afterFire e =
          { e with ticks_left := e.period_ticks, count := e.count - 1 } := by
        rw [afterFire, if_neg hcnd, if_pos hpos]
      set e' : TickerEntry :=
        { e with ticks_left := e.period_ticks, count := e.count - 1 } with he'
      have ha' : e'.active = true := by simp [he', ha]
      have hc' : e'.count = (K : Int) := by simp [he']; omega
      have ihn := ihK e' ha' hc' hKpos
      have htlP : e'.ticks_left = e.period_ticks := by simp [he']
      have hpp : e'.period_ticks = e.period_ticks := by simp [he']
      rw [htlP, hpp] at ihn
      obtain ⟨k, rfl⟩ : ∃ k, K = k + 1 := ⟨K - 1, by omega⟩
      have hsplit : max e.ticks_left 1 + (k + 1 + 1 - 1) * max e.period_ticks 1 =
          max e.ticks_left 1 + (max e.period_ticks 1 + (k + 1 - 1) * max e.period_ticks 1) := by
        have hm : (k + 1) * max e.period_ticks 1
            = max e.period_ticks 1 + k * max e.period_ticks 1 := by ring
        simp only [Nat.add_sub_cancel]
        omega
      rw [hsplit, runTicksB_append, runTicksB_to_fire e.ticks_left e ha rfl, haf]
      simp only [Nat.add_sub_cancel] at ihn ⊢
      simp only [List.count_append, List.count_replicate]
      simp [ihn.1, ihn.2]
      omega

/-- An entry with negative repeat count keeps its activation and count
forever. -/
lemma runTicksB_neg_active :
    ∀ (n : Nat) (e : TickerEntry), e.active = true → e.count < 0 →
      (runTicksB e n).1.active = true ∧ (runTicksB e n).1.count = e.count := by
  intro n
  induction n with
  | zero => intro e ha _; simp [runTicksB, ha]
  | succ n ih =>
    intro e ha hc
    rcases Nat.lt_or_ge e.ticks_left 2 with htl | htl
    · have hfire := tickerTick_fire ha (by omega)
      have hcnd : ¬(0 < e.count ∧ e.count - 1 = 0) := by omega
      have hcp : ¬(0 < e.count) := by omega
      have haf : afterFire e = { e with ticks_left := e.period_ticks } := by
        rw [afterFire, if_neg hcnd, if_neg hcp]
      have ihn := ih { e with ticks_left := e.period_ticks } (by simp [ha]) (by simp [hc])
      simp only [runTicksB, hfire, haf]
      simpa using ihn
    · have hcd := tickerTick_countdown ha (by omega)
      have ihn := ih { e with ticks_left := e.ticks_left - 1 } (by simp [ha]) (by simp [hc])
      simp only [runTicksB, hcd]
      simpa using ihn

/-- An entry with negative repeat count fires `j + 1` times within
`max ticks_left 1 + j * max period 1` observed ticks, for every `j`. -/
lemma runTicksB_neg_fires :
    ∀ (j : Nat) (e : TickerEntry), e.active = true → e.count < 0 →
      (runTicksB e (max e.ticks_left 1 + j * max e.period_ticks 1)).2.count true = j + 1 := by
  intro j
  induction j with
  | zero =>
    intro e ha hc
    simp only [Nat.zero_mul, Nat.add_zero]
    rw [runTicksB_to_fire e.ticks_left e ha rfl]
    simp [List.count_replicate]
  | succ j ih =>
    intro e ha hc
    have hcnd : ¬(0 < e.count ∧ e.count - 1 = 0) := by omega
    have hcp : ¬(0 < e.count) := by omega
    have haf : afterFire e = { e with ticks_left := e.period_ticks } := by
      rw [afterFire, if_neg hcnd, if_neg hcp]
    have ihn := ih { e with ticks_left := e.period_ticks } (by simp [ha]) (by simp [hc])
    simp only at ihn
    have hsplit : max e.ticks_left 1 + (j + 1) * max e.period_ticks 1 =
        max e.ticks_left 1 + (max e.period_ticks 1 + j * max e.period_ticks 1) := by
      have hm : (j + 1) * max e.period_ticks 1
          = max e.period_ticks 1 + j * max e.period_ticks 1 := by ring
      omega
    rw [hsplit, runTicksB_append, runTicksB_to_fire e.ticks_left e ha rfl, haf]
    simp only [List.count_append, List.count_replicate]
    simp at ihn ⊢
    omega

/-- The scheduler transition never reads the stored `delay_ticks` field
(after arming, only `ticks_left` matters). -/
lemma tickerTick_delay (e : TickerEntry) (x : Nat) :
    tickerTick { e with delay_ticks := x } =
      ({ (tickerTick e).1 with delay_ticks := x }, (tickerTick e).2) := by
  obtain ⟨act, d, p, cnt, pay, tl⟩ := e
  simp only [tickerTick]
  split_ifs <;> rfl

/-- Unfolding equation for a positive number of ticks. -/
lemma runTicksB_succ (e : TickerEntry) (n : Nat) :
    runTicksB e (n + 1) =
      ((runTicksB (tickerTick e).1 n).1,
        (tickerTick e).2 :: (runTicksB (tickerTick e).1 n).2) := rfl

/-- Runs of two entries differing only in the stored `delay_ticks` field
produce identical fire traces. -/
lemma runTicksB_delay :
    ∀ (n : Nat) (e : TickerEntry) (x : Nat),
      runTicksB { e with delay_ticks := x } n =
        ({ (runTicksB e n).1 with delay_ticks := x }, (runTicksB e n).2) := by
  intro n
  induction n with
  | zero => intro e x; simp [runTicksB]
  | succ n ih =>
    intro e x
    rw [runTicksB_succ, runTicksB_succ, tickerTick_delay e x]
    dsimp only
    rw [ih ((tickerTick e).1) x]

lemma getD_set_self {α : Type} (l : List α) (i : Nat) (x d : α) (h : i < l.length) :
    (l.set i x).getD i d = x := by
  rw [List.getD_eq_getElem?_getD, List.getElem?_set_self (by omega)]
  rfl

/-- `afterFire` commutes with overwriting the stored delay field. -/
lemma afterFire_delay (e : TickerEntry) (x : Nat) :
    afterFire { e with delay_ticks := x } = { afterFire e with delay_ticks := x } := by
  rw [afterFire, afterFire]
  split_ifs <;> rfl

/-- **C4**: a callback or ticker entry armed with repeat count `K > 0`
dispatches its payload exactly `K` times (once per serviced trigger for
callbacks; for tickers, never more than `K` in any run and exactly `K` within
the deadline `max ticks_left 1 + (K-1) * max period 1`) and then becomes
inactive; armed with a negative count it fires indefinitely and is never
deactivated; configuring with count `0` immediately deactivates the entry
regardless of its prior state. -/
theorem C4_repeat_count_semantics :
    (∀ (K n : Nat) (e : CbEntry), e.active = true → e.remaining = (K : Int) → 0 < K →
      (runCb e n).2.count true = min n K ∧ ((runCb e n).1.active = false ↔ K ≤ n)) ∧
    (∀ (n : Nat) (e : CbEntry), e.active = true → e.remaining < 0 →
      runCb e n = (e, List.replicate n true)) ∧
    (∀ (cbs : List CbEntry) (idx : Nat) (pay : List Char), idx < cbs.length →
      ((cbConfigure cbs idx 0 pay).getD idx ⟨false, 0, []⟩).active = false) ∧
    (∀ (n : Nat) (e : TickerEntry), e.active = true → 0 < e.count →
      ((runTicksB e n).2.count true : Int) ≤ e.count) ∧
    (∀ (K : Nat) (e : TickerEntry), e.active = true → e.count = (K : Int) → 0 < K →
      (runTicksB e (max e.ticks_left 1 + (K - 1) * max e.period_ticks 1)).2.count true = K ∧
      (runTicksB e (max e.ticks_left 1 + (K - 1) * max e.period_ticks 1)).1.active = false) ∧
    (∀ (n : Nat) (e : TickerEntry), e.active = true → e.count < 0 →
      (runTicksB e n).1.active = true ∧
      (runTicksB e (max e.ticks_left 1 + n * max e.period_ticks 1)).2.count true = n + 1) ∧
    (∀ (ts : List TickerEntry) (idx : Nat) (d p : Int) (pay : List Char), idx < ts.length →
      ((tickerConfigure ts idx d p 0 pay).getD idx ⟨false, 0, 0, 0, [], 0⟩).active = false) := by
  refine ⟨fun K n e ha hr hK => runCb_pos n K e ha hr hK,
          fun n e ha hr => runCb_neg ha hr n,
          ?_,
          fun n e ha hc => runTicksB_count_le n e ha hc,
          fun K e ha hc hK => runTicksB_exact K e ha hc hK,
          fun n e ha hc => ⟨(runTicksB_neg_active n e ha hc).1, runTicksB_neg_fires n e ha hc⟩,
          ?_⟩
  · intro cbs idx pay h
    rw [cbConfigure, if_pos rfl, getD_set_self _ _ _ _ (by simpa using h)]
  · intro ts idx d p pay h
    rw [tickerConfigure, if_pos rfl, getD_set_self _ _ _ _ (by simpa using h)]

/-- Closed instance of `C4_repeat_count_semantics`: a callback with count 2
fires twice in 5 triggers and ends inactive; an infinite callback never
stops; disabling via count 0 deactivates; a ticker armed `delay 0, period
10, count 3` fires exactly 3 times within 21 ticks and ends inactive. -/
theorem C4_repeat_count_semantics_witness :
    ((runCb ⟨true, (2 : Int), []⟩ 5).2.count true = min 5 2 ∧
      ((runCb ⟨true, (2 : Int), []⟩ 5).1.active = false ↔ 2 ≤ 5)) ∧
    runCb ⟨true, (-1 : Int), []⟩ 3 = (⟨true, (-1 : Int), []⟩, List.replicate 3 true) ∧
    ((cbConfigure [⟨true, 5, []⟩, ⟨false, 0, []⟩, ⟨false, 0, []⟩] 0 0 []).getD 0
      ⟨false, 0, []⟩).active = false ∧
    ((runTicksB ⟨true, 0, 10, 3, [], 0⟩ (max 0 1 + (3 - 1) * max 10 1)).2.count true = 3 ∧
      (runTicksB ⟨true, 0, 10, 3, [], 0⟩ (max 0 1 + (3 - 1) * max 10 1)).1.active = false) :=
  ⟨C4_repeat_count_semantics.1 2 5 ⟨true, 2, []⟩ rfl (by decide) (by decide),
   C4_repeat_count_semantics.2.1 3 ⟨true, -1, []⟩ rfl (by decide),
   C4_repeat_count_semantics.2.2.1 _ 0 [] (by decide),
   C4_repeat_count_semantics.2.2.2.2.1 3 ⟨true, 0, 10, 3, [], 0⟩ rfl (by decide) (by decide)⟩

/-- **C10**: a ticker armed with `delay = 1` produces exactly the same fire
trace as one armed with `delay = 0` and the same period/count/payload; in
general an active entry with countdown `t` first fires on observed tick
`max t 1` (so arming with delay `D ≥ 1` first fires on the `D`-th tick, and
delay `0` also fires on the first tick). -/
theorem C10_delay_zero_one_equivalence :
    (∀ (p c : Int) (pay : List Char) (n : Nat),
      (runTicksB (armTicker 0 p c pay) n).2 = (runTicksB (armTicker 1 p c pay) n).2) ∧
    (∀ (e : TickerEntry) (n : Nat), e.active = true → max e.ticks_left 1 ≤ n →
      (firePositions (runTicksB e n).2).head? = some (max e.ticks_left 1)) := by
  constructor
  · intro p c pay n
    cases n with
    | zero => rfl
    | succ m =>
      have ht0 : (armTicker 0 p c pay).ticks_left ≤ 1 := by
        simp [armTicker, toUInt32n]
      have ht1 : (armTicker 1 p c pay).ticks_left ≤ 1 := by
        simp [armTicker, toUInt32n]
      have h0 := tickerTick_fire (e := armTicker 0 p c pay) rfl ht0
      have h1 := tickerTick_fire (e := armTicker 1 p c pay) rfl ht1
      rw [runTicksB_succ, runTicksB_succ, h0, h1]
      dsimp only
      have harm : armTicker 1 p c pay =
          { armTicker 0 p c pay with delay_ticks := 1, ticks_left := 1 } := by
        simp [armTicker, toUInt32n]
      have heq : afterFire (armTicker 1 p c pay)
          = { afterFire (armTicker 0 p c pay) with delay_ticks := 1 } := by
        rw [harm]
        rw [show ({ armTicker 0 p c pay with delay_ticks := 1, ticks_left := 1 } : TickerEntry)
            = { ({ armTicker 0 p c pay with delay_ticks := 1 } : TickerEntry) with
                ticks_left := 1 } from rfl]
        rw [afterFire_ticksLeft, afterFire_delay]
      rw [heq]
      simp [runTicksB_delay]
  · exact fun e n ha hn => firstFire_pos ha hn

/-- Closed instance of `C10_delay_zero_one_equivalence`: with period 7,
count 2 the delay-0 and delay-1 traces over 20 ticks agree, and an armed
entry with countdown 4 first fires on tick 4. -/
theorem C10_delay_zero_one_equivalence_witness :
    (runTicksB (armTicker 0 7 2 []) 20).2 = (runTicksB (armTicker 1 7 2 []) 20).2 ∧
    (firePositions (runTicksB ⟨true, 4, 9, 5, [], 4⟩ 12).2).head? = some (max 4 1) :=
  ⟨C10_delay_zero_one_equivalence.1 7 2 [] 20,
   C10_delay_zero_one_equivalence.2 ⟨true, 4, 9, 5, [], 4⟩ 12 rfl (by decide)⟩

/-- **C5 counterexample**: the claim "after each firing a still-active entry
next fires `period` observed ticks later" fails for an entry armed with
period 0: after its first fire (tick 1) the entry is still active and fires
next on tick 2 — one tick later, not zero ticks later. -/
theorem C5_period_zero_counterexample :
    firePositions (runTicksB (armTicker 0 0 2 ("-print x".data)) 5).2 = [1, 2] ∧
    (runTicksB (armTicker 0 0 2 ("-print x".data)) 1).1.active = true ∧
    (armTicker 0 0 2 ("-print x".data)).period_ticks = 0 ∧
    ¬(2 - 1 = (armTicker 0 0 2 ("-print x".data)).period_ticks) := by decide

/-! ## The register machine handler `cmd_reg` -/

/-- The result of the three-token `sscanf(args, "%7s %15s %15s", op, tok1,
tok2)` call: `none` when fewer than 2 conversions succeed (the handler prints
its usage text), otherwise the opcode, destination token and source token
(empty when only 2 tokens are present, matching the zero-initialised C
buffer). -/
def scanRegArgs (args : List Char) : Option (List Char × List Char × List Char) :=
  match scanTok 7 args with
  | none => none
  | some (op, r1) =>
    match scanTok 15 r1 with
    | none => none
    | some (t1, r2) =>
      match scanTok 15 r2 with
      | none => some (op, t1, [])
      | some (t2, _) => some (op, t1, t2)

/-- The new destination value of a binary arithmetic/bitwise opcode, with
`int32_t` wrap-around where C overflow occurs. -/
def regBinOp (op : List Char) (d v : Int) : Int :=
  if strcaseEq op ("add".data) then toInt32 (d + v)
  else if strcaseEq op ("sub".data) then toInt32 (d - v)
  else if strcaseEq op ("mul".data) then toInt32 (d * v)
  else if strcaseEq op ("div".data) then toInt32 (Int.tdiv d v)
  else if strcaseEq op ("rem".data) then toInt32 (Int.tmod d v)
  else if strcaseEq op ("and".data) then Int.land d v
  else if strcaseEq op ("ior".data) then Int.lor d v
  else if strcaseEq op ("xor".data) then Int.xor d v
  else if strcaseEq op ("max".data) then (if d < v then v else d)
  else (if d > v then v else d)     -- min

/-- Is `op` one of the binary opcodes that resolve a source operand
(`mov` is handled separately because it ignores the old destination)? -/
def isBinOp (op : List Char) : Bool :=
  strcaseEq op ("add".data) || strcaseEq op ("sub".data) || strcaseEq op ("mul".data) ||
  strcaseEq op ("div".data) || strcaseEq op ("rem".data) || strcaseEq op ("and".data) ||
  strcaseEq op ("ior".data) || strcaseEq op ("xor".data) || strcaseEq op ("max".data) ||
  strcaseEq op ("min".data)

/-- The success echo `snprintf(buf, ..., "R%d=%ld\r\n", dreg, registers[dreg])`. -/
def regEcho (d : Nat) (v : Int) : Ev :=
  Ev.out (('R' :: decStr d) ++ ('=' :: decStr v) ++ crlf)

/-- `cmd_reg`: with no argument, list all registers; otherwise parse
`OP DST [SRC]`, resolve operands, execute, and echo the new destination
value.  Returns the new register bank and the events. -/
def cmd_reg (regs : List Int) (mem : Nat → Int) (args : List Char) :
    List Int × List Ev :=
  if args = [] then (regs, [Ev.regDump])
  else
    match scanRegArgs args with
    | none => (regs, [Ev.out ("Usage: -reg OP DST [SRC]\r\n".data)])
    | some (op, tok1, tok2) =>
      let dreg? := parse_register tok1
      if strcaseEq op ("mov".data) then
        match get_operand_value regs mem tok2 with
        | none => (regs, [Ev.out ("Bad src\r\n".data)])
        | some (v, evs) =>
          match dreg? with
          | none => (regs, evs ++ [Ev.out ("Bad dst\r\n".data)])
          | some d => (regs.set d v, evs ++ [regEcho d v])
      else if strcaseEq op ("xchg".data) then
        match dreg?, parse_register tok2 with
        | some d, some sr =>
          let regs' := (regs.set d (regGet regs sr)).set sr (regGet regs d)
          (regs', [regEcho d (regGet regs' d)])
        | _, _ => (regs, [Ev.out ("Bad reg\r\n".data)])
      else if strcaseEq op ("inc".data) then
        match dreg? with
        | none => (regs, [Ev.out ("Bad reg\r\n".data)])
        | some d =>
          let regs' := regs.set d (toInt32 (regGet regs d + 1))
          (regs', [regEcho d (regGet regs' d)])
      else if strcaseEq op ("dec".data) then
        match dreg? with
        | none => (regs, [Ev.out ("Bad reg\r\n".data)])
        | some d =>
          let regs' := regs.set d (toInt32 (regGet regs d - 1))
          (regs', [regEcho d (regGet regs' d)])
      else if strcaseEq op ("neg".data) then
        match dreg? with
        | none => (regs, [Ev.out ("Bad reg\r\n".data)])
        | some d =>
          let regs' := regs.set d (toInt32 (-(regGet regs d)))
          (regs', [regEcho d (regGet regs' d)])
      else if strcaseEq op ("not".data) then
        match dreg? with
        | none => (regs, [Ev.out ("Bad reg\r\n".data)])
        | some d =>
          let regs' := regs.set d (toInt32 (-(regGet regs d) - 1))
          (regs', [regEcho d (regGet regs' d)])
      else if isBinOp op then
        match get_operand_value regs mem tok2 with
        | none => (regs, [Ev.out ("Bad src\r\n".data)])
        | some (v, evs) =>
          match dreg? with
          | none => (regs, evs ++ [Ev.out ("Bad dst\r\n".data)])
          | some d =>
            if (strcaseEq op ("div".data) || strcaseEq op ("rem".data)) ∧ v = 0 then
              (regs, evs ++ [Ev.out ("div0\r\n".data)])
            else
              let regs' := regs.set d (regBinOp op (regGet regs d) v)
              (regs', evs ++ [regEcho d (regGet regs' d)])
      else (regs, [Ev.out ("Bad op\r\n".data)])

example : cmd_reg (List.replicate 32 0) (fun _ => 0) ("mov r1 #10".data) =
    ((List.replicate 32 0).set 1 10, [regEcho 1 10]) := by decide
example : (cmd_reg ((List.replicate 32 0).set 1 10) (fun _ => 0) ("add r1 r1".data)).1 =
    (List.replicate 32 0).set 1 20 := by decide
example : cmd_reg ((List.replicate 32 0).set 3 7) (fun _ => 0) ("div r3 #0".data) =
    ((List.replicate 32 0).set 3 7, [Ev.out ("div0\r\n".data)]) := by decide
example : (cmd_reg (List.replicate 32 0) (fun _ => 5) ("rem r3 @x20000000".data)).2 =
    [Ev.memRead 0x20000000, regEcho 3 0] := by decide

lemma strcaseEq_ne {op a b : List Char} (h : strcaseEq op a = true)
    (hne : ¬(a.map lowerC = b.map lowerC)) : strcaseEq op b = false := by
  simp only [strcaseEq, decide_eq_true_eq] at h
  simp only [strcaseEq, decide_eq_false_iff_not]
  rw [h]
  exact hne

/-- **C3**: for every destination register and every source operand that
resolves to zero, `-reg div DST SRC` and `-reg rem DST SRC` emit the `div0`
diagnostic (after any operand-resolution memory-read events) and leave the
whole register bank unchanged. -/
theorem C3_div_rem_by_zero (regs : List Int) (mem : Nat → Int)
    (args op t1 t2 : List Char) (d : Nat) (evs : List Ev)
    (hscan : scanRegArgs args = some (op, t1, t2))
    (hop : strcaseEq op ("div".data) = true ∨ strcaseEq op ("rem".data) = true)
    (hd : parse_register t1 = some d)
    (hval : get_operand_value regs mem t2 = some (0, evs)) :
    cmd_reg regs mem args = (regs, evs ++ [Ev.out ("div0\r\n".data)]) := by
  have hne : args ≠ [] := by
    intro h
    subst h
    simp [scanRegArgs, scanTok] at hscan
  have h1 : strcaseEq op ("mov".data) = false := by
    rcases hop with h | h <;> exact strcaseEq_ne h (by decide)
  have h2 : strcaseEq op ("xchg".data) = false := by
    rcases hop with h | h <;> exact strcaseEq_ne h (by decide)
  have h3 : strcaseEq op ("inc".data) = false := by
    rcases hop with h | h <;> exact strcaseEq_ne h (by decide)
  have h4 : strcaseEq op ("dec".data) = false := by
    rcases hop with h | h <;> exact strcaseEq_ne h (by decide)
  have h5 : strcaseEq op ("neg".data) = false := by
    rcases hop with h | h <;> exact strcaseEq_ne h (by decide)
  have h6 : strcaseEq op ("not".data) = false := by
    rcases hop with h | h <;> exact strcaseEq_ne h (by decide)
  have hbin : isBinOp op = true := by
    rcases hop with h | h <;> simp [isBinOp, h]
  have hdr : (strcaseEq op ("div".data) || strcaseEq op ("rem".data)) = true := by
    rcases hop with h | h <;> simp [h]
  simp [cmd_reg, if_neg hne, hscan, h1, h2, h3, h4, h5, h6, hbin, hdr, hd, hval]

/-- Closed instance of `C3_div_rem_by_zero`: `div r3 #0` with register 3 = 7
and `rem r3 @x20000000` with that memory word 0 both leave the bank unchanged
and print `div0`. -/
theorem C3_div_rem_by_zero_witness :
    cmd_reg ((List.replicate 32 0).set 3 7) (fun _ => 0) ("div r3 #0".data)
      = ((List.replicate 32 0).set 3 7, [] ++ [Ev.out ("div0\r\n".data)]) ∧
    cmd_reg ((List.replicate 32 0).set 3 7) (fun _ => 0) ("rem r3 @x20000000".data)
      = ((List.replicate 32 0).set 3 7,
          [Ev.memRead 0x20000000] ++ [Ev.out ("div0\r\n".data)]) :=
  ⟨C3_div_rem_by_zero _ _ _ ("div".data) ("r3".data) ("#0".data) 3 [] (by decide)
      (Or.inl (by decide)) (by decide) (by decide),
   C3_div_rem_by_zero _ _ _ ("rem".data) ("r3".data) ("@x20000000".data) 3
      [Ev.memRead 0x20000000] (by decide) (Or.inr (by decide)) (by decide) (by decide)⟩

/-- **C2** (code bug): a memory-form source operand is dereferenced with no
`addrOK` range check: resolving `@xf0000000` reads address `0xF0000000`
(recorded as a `memRead` event) even though `addrOK` rejects it, and
`-reg mov r0 @xf0000000` performs the read and then mutates register 0 —
the claim's "refused with no read and no register mutation" does not happen.
(`addrOK` is applied only on the `-memr` path, `cmd_memr`.) -/
theorem C2_memory_operand_unchecked :
    get_operand_value (List.replicate 32 0) (fun _ => 77) ("@xf0000000".data)
      = some (77, [Ev.memRead 0xf0000000]) ∧
    addrOK 0xf0000000 = false ∧
    cmd_reg (List.replicate 32 0) (fun _ => 77) ("mov r0 @xf0000000".data)
      = ((List.replicate 32 0).set 0 77,
          [Ev.memRead 0xf0000000] ++ [regEcho 0 77]) := by decide

/-! ## The conditional branch `cmd_if` -/

/-- `get_if_operand`: `#`-prefixed literals go through `strtol(.., 0)` (so
decimal, `0x` hex and leading-`0` octal — but **not** the bare `#x` hex form)
with a whole-token consumption check; `r`/`R` registers use `atoi` with a
range check and no trailing-junk check. -/
def get_if_operand (regs : List Int) (tok : List Char) : Option Int :=
  if tok.headD ' ' = '#' then
    let (v, rest) := strtol 0 tok.tail
    if rest = [] then some v else none
  else if tok.headD ' ' = 'r' || tok.headD ' ' = 'R' then
    let n := atoi tok.tail
    if 0 ≤ n ∧ n < 32 then some (regGet regs n.toNat) else none
  else none

/-- Outcome of `cmd_if`: an error diagnostic, a silent no-op (selected branch
empty), or a re-entry into the dispatcher with the given line. -/
inductive IfR
  | err (msg : List Char)
  | silent
  | go (line : List Char)
  deriving DecidableEq, Repr

/-- `cmd_if` up to (but not including) the recursive `handleLine` call:
parse `A COND B` as three `sscanf` tokens, locate the first `?` in the raw
argument string and the first `:` after it, extract and trim the branch
clauses exactly as the C pointer walk does, resolve the operands, evaluate
the signed comparison, and decide which branch line (if any) is dispatched. -/
def cmdIfCore (regs : List Int) (args : List Char) : IfR :=
  match scanTok 15 args with
  | none => IfR.err ("Usage: -if A COND B ? DESTT : DESTF\r\n".data)
  | some (tokA, r1) =>
    match scanTok 2 r1 with
    | none => IfR.err ("Usage: -if A COND B ? DESTT : DESTF\r\n".data)
    | some (cond, r2) =>
      match scanTok 15 r2 with
      | none => IfR.err ("Usage: -if A COND B ? DESTT : DESTF\r\n".data)
      | some (tokB, _) =>
        match splitAtChar '?' args with
        | none => IfR.err ("Bad '?' in -if\r\n".data)
        | some (_, post) =>
          let (destt, destf) :=
            match splitAtChar ':' post with
            | some (pre, postc) =>
              (rstrip pre, (postc.dropWhile cIsSpace).take 63)
            | none => (post.take 63, [])
          let dt := destt.dropWhile cIsSpace
          let df := destf.dropWhile cIsSpace
          match get_if_operand regs tokA with
          | none => IfR.err ("Bad A\r\n".data)
          | some a =>
            match get_if_operand regs tokB with
            | none => IfR.err ("Bad B\r\n".data)
            | some b =>
              let ch := cond.headD ' '
              if ch = '>' || ch = '<' || ch = '=' then
                let res := if ch = '>' then a > b else if ch = '<' then a < b else a = b
                if res then (if dt ≠ [] then IfR.go dt else IfR.silent)
                else (if df ≠ [] then IfR.go df else IfR.silent)
              else IfR.err ("COND?\r\n".data)

example : cmdIfCore ((List.replicate 32 0).set 1 10)
    ("r1 > #5 ? -print hi : -print lo".data) = IfR.go ("-print hi".data) := by decide
example : cmdIfCore (List.replicate 32 0)
    ("r1 > #5 ? -print hi : -print lo".data) = IfR.go ("-print lo".data) := by decide
example : cmdIfCore (List.replicate 32 0)
    ("r3 < #10 ? : -print hi".data) = IfR.silent := by decide
example : cmdIfCore (List.replicate 32 0)
    ("#1 = #1 ? -print y".data) = IfR.go ("-print y".data) := by decide
example : cmdIfCore (List.replicate 32 0)
    ("#1 = #2 ? -print y".data) = IfR.silent := by decide
example : cmdIfCore (List.replicate 32 0)
    ("#1 = #2 -print y".data) = IfR.err ("Bad '?' in -if\r\n".data) := by decide
example : cmdIfCore (List.replicate 32 0)
    ("#x10 = #16 ? -print y : -print n".data) = IfR.err ("Bad A\r\n".data) := by decide
example : cmdIfCore (List.replicate 32 0)
    ("#0x10 = #16 ? -print y : -print n".data) = IfR.go ("-print y".data) := by decide

lemma takeWhile_all {p : Char → Bool} :
    ∀ {h : List Char}, (∀ c ∈ h, p c = true) → h.takeWhile p = h := by
  intro h
  induction h with
  | nil => intro _; rfl
  | cons c t ih =>
    intro hall
    rw [List.takeWhile_cons, if_pos (hall c (by simp))]
    rw [ih (fun x hx => hall x (by simp [hx]))]


/-- `strtol` base 0 consumes nothing from a token starting with a character
that is no sign, no digit and no leading zero (e.g. `x`). -/
lemma strtol0_stuck (c : Char) (s : List Char) (hsp : cIsSpace c = false)
    (hm : ¬(c = '-')) (hp : ¬(c = '+')) (h0 : ¬(c = '0'))
    (hd : cIsDigit c = false) :
    strtol 0 (c :: s) = (0, c :: s) := by
  have hb : isBaseDigit 10 c = false := by simp [isBaseDigit, hd]
  simp [strtol, strtolRaw, List.dropWhile_cons, hsp, hm, hp, h0, hd, hb,
    List.takeWhile_cons, clampLong]

/-- `strtol` base 0 on `0x` followed by hex digits consumes the whole string
and yields the hexadecimal value. -/
lemma strtol0_hex (h : List Char) (hne : h ≠ []) (hall : ∀ c ∈ h, cIsXdigit c = true) :
    strtol 0 ('0' :: 'x' :: h) = (clampLong (natOfDigits 16 h), []) := by
  have htw : h.takeWhile (isBaseDigit 16) = h :=
    takeWhile_all (fun c hc => by simp [isBaseDigit, hall c hc])
  have hhd : cIsXdigit (h.head?.getD ' ') = true := by
    cases h with
    | nil => exact absurd rfl hne
    | cons c t => exact hall c (by simp)
  have hne' : h.isEmpty = false := by
    cases h with
    | nil => exact absurd rfl hne
    | cons c t => rfl
  simp +decide [strtol, strtolRaw, List.dropWhile_cons, List.takeWhile_cons, hhd, htw, hne',
    hne]

lemma get_if_operand_bare_x (regs : List Int) (s : List Char) :
    get_if_operand regs ('#' :: 'x' :: s) = none := by
  have h := strtol0_stuck 'x' s (by decide) (by decide) (by decide) (by decide) (by decide)
  simp [get_if_operand, h]

lemma get_if_operand_bare_X (regs : List Int) (s : List Char) :
    get_if_operand regs ('#' :: 'X' :: s) = none := by
  have h := strtol0_stuck 'X' s (by decide) (by decide) (by decide) (by decide) (by decide)
  simp [get_if_operand, h]

lemma get_if_operand_0x (regs : List Int) (h : List Char) (hne : h ≠ [])
    (hall : ∀ c ∈ h, cIsXdigit c = true)
    (hle : (natOfDigits 16 h : Int) ≤ 2 ^ 31 - 1) :
    get_if_operand regs ('#' :: '0' :: 'x' :: h) = some (natOfDigits 16 h) := by
  have hs := strtol0_hex h hne hall
  have hcl : clampLong ((natOfDigits 16 h : Nat) : Int) = (natOfDigits 16 h : Int) := by
    have h0 : (0 : Int) ≤ ((natOfDigits 16 h : Nat) : Int) := Int.ofNat_nonneg _
    rw [clampLong, min_eq_left hle, max_eq_right (by omega)]
  simp [get_if_operand, hs, hcl]

/-- **C6 counterexample**: the `#xHEX` literal form is *not* accepted by
`-if`: `-if #x10 = #16 ? -print y : -print n` is rejected with the
malformed-operand diagnostic `Bad A` and nothing is dispatched, instead of
resolving `#x10` to 16 and evaluating the comparison. -/
theorem C6_bare_hex_rejected_counterexample :
    cmdIfCore (List.replicate 32 0) ("#x10 = #16 ? -print y : -print n".data)
      = IfR.err ("Bad A\r\n".data) ∧
    get_if_operand (List.replicate 32 0) ("#x10".data) = none := by decide

/-- **C6 (amended)**: `-if` operands written with `#` are parsed by C
`strtol` with base 0: `#<decimal>` and `#0xHEX` resolve (so hexadecimal
immediates are accepted in the `#0xHEX` spelling, and the comparison is then
evaluated), while the bare `#xHEX` spelling is always rejected as a
malformed operand. -/
theorem C6_if_operand_hex_forms :
    (∀ (regs : List Int) (s : List Char),
      get_if_operand regs ('#' :: 'x' :: s) = none ∧
      get_if_operand regs ('#' :: 'X' :: s) = none) ∧
    (∀ (regs : List Int) (h : List Char), h ≠ [] → (∀ c ∈ h, cIsXdigit c = true) →
      (natOfDigits 16 h : Int) ≤ 2 ^ 31 - 1 →
      get_if_operand regs ('#' :: '0' :: 'x' :: h) = some (natOfDigits 16 h)) ∧
    cmdIfCore (List.replicate 32 0) ("#0x10 = #16 ? -print y : -print n".data)
      = IfR.go ("-print y".data) ∧
    cmdIfCore (List.replicate 32 0) ("#0x10 = #17 ? -print y : -print n".data)
      = IfR.go ("-print n".data) :=
  ⟨fun regs s => ⟨get_if_operand_bare_x regs s, get_if_operand_bare_X regs s⟩,
   fun regs h hne hall hle => get_if_operand_0x regs h hne hall hle,
   by decide, by decide⟩

/-- Closed instance of `C6_if_operand_hex_forms`: `#xAB` is rejected while
`#0xAB` resolves to 171, in any register state. -/
theorem C6_if_operand_hex_forms_witness :
    get_if_operand (List.replicate 32 0) ("#xAB".data) = none ∧
    get_if_operand (List.replicate 32 0) ("#0xAB".data) = some 171 :=
  ⟨(C6_if_operand_hex_forms.1 (List.replicate 32 0) ("AB".data)).1,
   by
    have h := C6_if_operand_hex_forms.2.1 (List.replicate 32 0) ("AB".data)
      (by decide) (by decide) (by decide)
    simpa using h⟩

/-! ### String lemmas for the `cmd_if` characterisation -/

lemma scanTok_cons_space (n : Nat) (l : List Char) :
    scanTok n (' ' :: l) = scanTok n l := by
  simp +decide [scanTok, List.dropWhile_cons]

lemma takeTok_append {t : List Char} (d : Char) (rest : List Char) :
    ∀ {n : Nat}, t.length ≤ n → (∀ x ∈ t, cIsSpace x = false) → cIsSpace d = true →
      takeTok n (t ++ d :: rest) = t := by
  induction t with
  | nil =>
    intro n _ _ hd
    cases n with
    | zero => rfl
    | succ n => simp [takeTok, hd]
  | cons x xs ih =>
    intro n hlen hns hd
    cases n with
    | zero => simp at hlen
    | succ n =>
      simp only [List.cons_append, takeTok, hns x (by simp), Bool.false_eq_true, if_false,
        List.append_eq]
      rw [ih (by simpa using hlen) (fun y hy => hns y (by simp [hy])) hd]

lemma scanTok_exact {t : List Char} {n : Nat} (d : Char) (rest : List Char)
    (hne : t ≠ []) (hlen : t.length ≤ n) (hns : ∀ x ∈ t, cIsSpace x = false)
    (hd : cIsSpace d = true) :
    scanTok n (t ++ d :: rest) = some (t, d :: rest) := by
  obtain ⟨c0, t0, rfl⟩ : ∃ c0 t0, t = c0 :: t0 := by
    cases t with
    | nil => exact absurd rfl hne
    | cons a b => exact ⟨a, b, rfl⟩
  have hdw : ((c0 :: t0) ++ d :: rest).dropWhile cIsSpace = (c0 :: t0) ++ d :: rest := by
    rw [List.cons_append, List.dropWhile_cons, if_neg (by simp [hns c0 (by simp)])]
  have htt := takeTok_append (t := c0 :: t0) d rest hlen hns hd
  simp only [scanTok, hdw]
  rw [htt]
  simp [List.drop_left]

lemma splitAtChar_append (ch : Char) :
    ∀ (pre post : List Char), ch ∉ pre →
      splitAtChar ch (pre ++ ch :: post) = some (pre, post) := by
  intro pre
  induction pre with
  | nil => intro post _; simp [splitAtChar]
  | cons c r ih =>
    intro post h
    have hc : ¬(c = ch) := by
      intro he
      exact h (by simp [he])
    simp only [List.cons_append, splitAtChar, if_neg hc, List.append_eq]
    rw [ih post (fun hm => h (by simp [hm]))]
    rfl

lemma rstrip_append_space (x : List Char) (c : Char) (hc : cIsSpace c = true) :
    rstrip (x ++ [c]) = rstrip x := by
  simp [rstrip, List.dropWhile_cons, hc]

lemma dropWhile_idem (p : Char → Bool) (l : List Char) :
    (l.dropWhile p).dropWhile p = l.dropWhile p := by
  induction l with
  | nil => rfl
  | cons c r ih =>
    rw [List.dropWhile_cons]
    by_cases h : p c = true
    · simp [h, ih]
    · simp only [h, Bool.false_eq_true, if_false]
      rw [List.dropWhile_cons, if_neg (by simp [h])]

/-- Leading-trim after right-strip ignores one extra leading space. -/
lemma trim_cons_space (y : List Char) :
    (rstrip (' ' :: y)).dropWhile cIsSpace = trimC y := by
  by_cases h : y.reverse.dropWhile cIsSpace = []
  · have h1 : rstrip (' ' :: y) = [] := by
      rw [rstrip, List.reverse_cons, List.dropWhile_append]
      rw [if_pos (by simp [h])]
      simp +decide [List.dropWhile]
    have h2 : rstrip y = [] := by simp [rstrip, h]
    simp [h1, trimC, h2]
  · have h1 : rstrip (' ' :: y) = ' ' :: rstrip y := by
      rw [rstrip, List.reverse_cons, List.dropWhile_append]
      rw [if_neg (by simp [h])]
      rw [List.reverse_append]
      simp [rstrip]
    rw [h1, List.dropWhile_cons, if_pos (by decide)]
    rfl

/-- **C7 counterexample**: on a false comparison the dispatched false-branch
line keeps its trailing whitespace — it is *not* the trimmed DESTF, so the
claimed symmetry with the (fully trimmed) true branch fails.  Dispatching
`-print b␣␣` prints `b␣␣`, observably different from the trimmed dispatch. -/
theorem C7_destf_not_trimmed_counterexample :
    cmdIfCore (List.replicate 32 0) ("#1 = #2 ? -print a : -print b  ".data)
      = IfR.go ("-print b  ".data) ∧
    ¬(trimC ("-print b  ".data) = "-print b  ".data) := by decide

lemma length_dropWhile_le (p : Char → Bool) (l : List Char) :
    (l.dropWhile p).length ≤ l.length := by
  induction l with
  | nil => simp
  | cons c r ih =>
    rw [List.dropWhile_cons]
    by_cases h : p c = true
    · simp only [h, if_true]
      exact le_trans ih (by simp)
    · simp [h]

/-- Characterisation of `cmd_if` on a well-formed line with a `:` clause:
operands/comparison per `get_if_operand` and signed order, the true branch
dispatches the fully trimmed DESTT, the false branch dispatches DESTF trimmed
of leading whitespace only (trailing kept), each exactly when non-empty. -/
lemma cmdIf_colon_form (regs : List Int) (ta c tb dT dF : List Char) (a b : Int)
    (hta1 : ta ≠ []) (hta2 : ta.length ≤ 15) (hta3 : ∀ x ∈ ta, cIsSpace x = false)
    (hta4 : '?' ∉ ta)
    (hc1 : c ≠ []) (hc2 : c.length ≤ 2) (hc3 : ∀ x ∈ c, cIsSpace x = false)
    (hc4 : '?' ∉ c)
    (htb1 : tb ≠ []) (htb2 : tb.length ≤ 15) (htb3 : ∀ x ∈ tb, cIsSpace x = false)
    (htb4 : '?' ∉ tb)
    (hdT : ':' ∉ dT) (hdF : dF.length ≤ 63)
    (hA : get_if_operand regs ta = some a) (hB : get_if_operand regs tb = some b) :
    cmdIfCore regs
        (ta ++ ' ' :: (c ++ ' ' :: (tb ++ ' ' :: '?' :: ' ' :: (dT ++ ' ' :: ':' :: ' ' :: dF))))
      = (if c.headD ' ' = '>' || c.headD ' ' = '<' || c.headD ' ' = '=' then
          (if (if c.headD ' ' = '>' then a > b else if c.headD ' ' = '<' then a < b else a = b)
           then (if trimC dT ≠ [] then IfR.go (trimC dT) else IfR.silent)
           else (if dF.dropWhile cIsSpace ≠ [] then IfR.go (dF.dropWhile cIsSpace)
                 else IfR.silent))
         else IfR.err ("COND?\r\n".data)) := by
  have hsA : scanTok 15
      (ta ++ ' ' :: (c ++ ' ' :: (tb ++ ' ' :: '?' :: ' ' :: (dT ++ ' ' :: ':' :: ' ' :: dF))))
      = some (ta, ' ' :: (c ++ ' ' :: (tb ++ ' ' :: '?' :: ' ' :: (dT ++ ' ' :: ':' :: ' ' :: dF)))) :=
    scanTok_exact ' ' _ hta1 hta2 hta3 (by decide)
  have hsC : scanTok 2 (' ' :: (c ++ ' ' :: (tb ++ ' ' :: '?' :: ' ' :: (dT ++ ' ' :: ':' :: ' ' :: dF))))
      = some (c, ' ' :: (tb ++ ' ' :: '?' :: ' ' :: (dT ++ ' ' :: ':' :: ' ' :: dF))) := by
    rw [scanTok_cons_space]
    exact scanTok_exact ' ' _ hc1 hc2 hc3 (by decide)
  have hsB : scanTok 15 (' ' :: (tb ++ ' ' :: '?' :: ' ' :: (dT ++ ' ' :: ':' :: ' ' :: dF)))
      = some (tb, ' ' :: '?' :: ' ' :: (dT ++ ' ' :: ':' :: ' ' :: dF)) := by
    rw [scanTok_cons_space]
    exact scanTok_exact ' ' _ htb1 htb2 htb3 (by decide)
  have hform : (ta ++ ' ' :: (c ++ ' ' :: (tb ++ ' ' :: '?' :: ' ' :: (dT ++ ' ' :: ':' :: ' ' :: dF))))
      = (ta ++ ' ' :: c ++ ' ' :: tb ++ [' ']) ++ '?' :: (' ' :: (dT ++ ' ' :: ':' :: ' ' :: dF)) := by
    simp
  have hq : splitAtChar '?'
      (ta ++ ' ' :: (c ++ ' ' :: (tb ++ ' ' :: '?' :: ' ' :: (dT ++ ' ' :: ':' :: ' ' :: dF))))
      = some (ta ++ ' ' :: c ++ ' ' :: tb ++ [' '], ' ' :: (dT ++ ' ' :: ':' :: ' ' :: dF)) := by
    rw [hform]
    exact splitAtChar_append '?' _ _ (by simp +decide [hta4, hc4, htb4])
  have hcolform : (' ' :: (dT ++ ' ' :: ':' :: ' ' :: dF))
      = (' ' :: (dT ++ [' '])) ++ ':' :: (' ' :: dF) := by simp
  have hcol : splitAtChar ':' (' ' :: (dT ++ ' ' :: ':' :: ' ' :: dF))
      = some (' ' :: (dT ++ [' ']), ' ' :: dF) := by
    rw [hcolform]
    exact splitAtChar_append ':' _ _ (by simp +decide [hdT])
  have hdt : (rstrip (' ' :: (dT ++ [' ']))).dropWhile cIsSpace = trimC dT := by
    rw [show (' ' :: (dT ++ [' '])) = (' ' :: dT) ++ [' '] from rfl]
    rw [rstrip_append_space (' ' :: dT) ' ' (by decide)]
    exact trim_cons_space dT
  have hdf : ((' ' :: dF).dropWhile cIsSpace).take 63 = dF.dropWhile cIsSpace := by
    rw [List.dropWhile_cons, if_pos (by decide)]
    exact List.take_of_length_le (le_trans (length_dropWhile_le _ _) hdF)
  have hdf2 : (dF.dropWhile cIsSpace).dropWhile cIsSpace = dF.dropWhile cIsSpace :=
    dropWhile_idem _ _
  simp only [cmdIfCore, hsA, hsC, hsB, hq, hcol, hA, hB, hdt, hdf, hdf2]

lemma splitAtChar_none (ch : Char) : ∀ (l : List Char), ch ∉ l → splitAtChar ch l = none := by
  intro l
  induction l with
  | nil => intro _; rfl
  | cons c r ih =>
    intro h
    rw [splitAtChar, if_neg (fun he => h (by simp [he]))]
    rw [ih (fun hm => h (by simp [hm]))]
    rfl

/-- Characterisation of `cmd_if` on a well-formed line with no `:`: the false
branch is empty (silent no-op on a false comparison), the true branch
dispatches DESTT trimmed of leading whitespace only. -/
lemma cmdIf_nocolon_form (regs : List Int) (ta c tb dT : List Char) (a b : Int)
    (hta1 : ta ≠ []) (hta2 : ta.length ≤ 15) (hta3 : ∀ x ∈ ta, cIsSpace x = false)
    (hta4 : '?' ∉ ta)
    (hc1 : c ≠ []) (hc2 : c.length ≤ 2) (hc3 : ∀ x ∈ c, cIsSpace x = false)
    (hc4 : '?' ∉ c)
    (htb1 : tb ≠ []) (htb2 : tb.length ≤ 15) (htb3 : ∀ x ∈ tb, cIsSpace x = false)
    (htb4 : '?' ∉ tb)
    (hdT : ':' ∉ dT) (hdTlen : dT.length ≤ 62)
    (hA : get_if_operand regs ta = some a) (hB : get_if_operand regs tb = some b) :
    cmdIfCore regs (ta ++ ' ' :: (c ++ ' ' :: (tb ++ ' ' :: '?' :: ' ' :: dT)))
      = (if c.headD ' ' = '>' || c.headD ' ' = '<' || c.headD ' ' = '=' then
          (if (if c.headD ' ' = '>' then a > b else if c.headD ' ' = '<' then a < b else a = b)
           then (if dT.dropWhile cIsSpace ≠ [] then IfR.go (dT.dropWhile cIsSpace)
                 else IfR.silent)
           else IfR.silent)
         else IfR.err ("COND?\r\n".data)) := by
  have hsA : scanTok 15 (ta ++ ' ' :: (c ++ ' ' :: (tb ++ ' ' :: '?' :: ' ' :: dT)))
      = some (ta, ' ' :: (c ++ ' ' :: (tb ++ ' ' :: '?' :: ' ' :: dT))) :=
    scanTok_exact ' ' _ hta1 hta2 hta3 (by decide)
  have hsC : scanTok 2 (' ' :: (c ++ ' ' :: (tb ++ ' ' :: '?' :: ' ' :: dT)))
      = some (c, ' ' :: (tb ++ ' ' :: '?' :: ' ' :: dT)) := by
    rw [scanTok_cons_space]
    exact scanTok_exact ' ' _ hc1 hc2 hc3 (by decide)
  have hsB : scanTok 15 (' ' :: (tb ++ ' ' :: '?' :: ' ' :: dT))
      = some (tb, ' ' :: '?' :: ' ' :: dT) := by
    rw [scanTok_cons_space]
    exact scanTok_exact ' ' _ htb1 htb2 htb3 (by decide)
  have hform : (ta ++ ' ' :: (c ++ ' ' :: (tb ++ ' ' :: '?' :: ' ' :: dT)))
      = (ta ++ ' ' :: c ++ ' ' :: tb ++ [' ']) ++ '?' :: (' ' :: dT) := by simp
  have hq : splitAtChar '?' (ta ++ ' ' :: (c ++ ' ' :: (tb ++ ' ' :: '?' :: ' ' :: dT)))
      = some (ta ++ ' ' :: c ++ ' ' :: tb ++ [' '], ' ' :: dT) := by
    rw [hform]
    exact splitAtChar_append '?' _ _ (by simp +decide [hta4, hc4, htb4])
  have hcol : splitAtChar ':' (' ' :: dT) = none :=
    splitAtChar_none ':' _ (by simp +decide [hdT])
  have htk : (' ' :: dT).take 63 = ' ' :: dT :=
    List.take_of_length_le (by simp; omega)
  have hdt : (' ' :: dT).dropWhile cIsSpace = dT.dropWhile cIsSpace := by
    rw [List.dropWhile_cons, if_pos (by decide)]
  simp only [cmdIfCore, hsA, hsC, hsB, hq, hcol, hA, hB, htk, hdt, List.dropWhile_nil]
  simp [List.dropWhile]

/-- A line whose argument string contains no `?` (after three successful
token conversions) is rejected with the `Bad '?'` diagnostic and nothing is
dispatched. -/
lemma cmdIf_no_qmark (regs : List Int) (args t1 r1 t2 r2 t3 r3 : List Char)
    (hs1 : scanTok 15 args = some (t1, r1)) (hs2 : scanTok 2 r1 = some (t2, r2))
    (hs3 : scanTok 15 r2 = some (t3, r3)) (hq : '?' ∉ args) :
    cmdIfCore regs args = IfR.err ("Bad '?' in -if\r\n".data) := by
  have hsplit := splitAtChar_none '?' args hq
  simp only [cmdIfCore, hs1, hs2, hs3, hsplit]

/-- A malformed A operand on a well-formed line is rejected with `Bad A` and
nothing is dispatched. -/
lemma cmdIf_badA (regs : List Int) (ta c tb dT dF : List Char)
    (hta1 : ta ≠ []) (hta2 : ta.length ≤ 15) (hta3 : ∀ x ∈ ta, cIsSpace x = false)
    (hta4 : '?' ∉ ta)
    (hc1 : c ≠ []) (hc2 : c.length ≤ 2) (hc3 : ∀ x ∈ c, cIsSpace x = false)
    (hc4 : '?' ∉ c)
    (htb1 : tb ≠ []) (htb2 : tb.length ≤ 15) (htb3 : ∀ x ∈ tb, cIsSpace x = false)
    (htb4 : '?' ∉ tb)
    (hdT : ':' ∉ dT)
    (hA : get_if_operand regs ta = none) :
    cmdIfCore regs
        (ta ++ ' ' :: (c ++ ' ' :: (tb ++ ' ' :: '?' :: ' ' :: (dT ++ ' ' :: ':' :: ' ' :: dF))))
      = IfR.err ("Bad A\r\n".data) := by
  have hsA : scanTok 15
      (ta ++ ' ' :: (c ++ ' ' :: (tb ++ ' ' :: '?' :: ' ' :: (dT ++ ' ' :: ':' :: ' ' :: dF))))
      = some (ta, ' ' :: (c ++ ' ' :: (tb ++ ' ' :: '?' :: ' ' :: (dT ++ ' ' :: ':' :: ' ' :: dF)))) :=
    scanTok_exact ' ' _ hta1 hta2 hta3 (by decide)
  have hsC : scanTok 2 (' ' :: (c ++ ' ' :: (tb ++ ' ' :: '?' :: ' ' :: (dT ++ ' ' :: ':' :: ' ' :: dF))))
      = some (c, ' ' :: (tb ++ ' ' :: '?' :: ' ' :: (dT ++ ' ' :: ':' :: ' ' :: dF))) := by
    rw [scanTok_cons_space]
    exact scanTok_exact ' ' _ hc1 hc2 hc3 (by decide)
  have hsB : scanTok 15 (' ' :: (tb ++ ' ' :: '?' :: ' ' :: (dT ++ ' ' :: ':' :: ' ' :: dF)))
      = some (tb, ' ' :: '?' :: ' ' :: (dT ++ ' ' :: ':' :: ' ' :: dF)) := by
    rw [scanTok_cons_space]
    exact scanTok_exact ' ' _ htb1 htb2 htb3 (by decide)
  have hform : (ta ++ ' ' :: (c ++ ' ' :: (tb ++ ' ' :: '?' :: ' ' :: (dT ++ ' ' :: ':' :: ' ' :: dF))))
      = (ta ++ ' ' :: c ++ ' ' :: tb ++ [' ']) ++ '?' :: (' ' :: (dT ++ ' ' :: ':' :: ' ' :: dF)) := by
    simp
  have hq : splitAtChar '?'
      (ta ++ ' ' :: (c ++ ' ' :: (tb ++ ' ' :: '?' :: ' ' :: (dT ++ ' ' :: ':' :: ' ' :: dF))))
      = some (ta ++ ' ' :: c ++ ' ' :: tb ++ [' '], ' ' :: (dT ++ ' ' :: ':' :: ' ' :: dF)) := by
    rw [hform]
    exact splitAtChar_append '?' _ _ (by simp +decide [hta4, hc4, htb4])
  have hcolform : (' ' :: (dT ++ ' ' :: ':' :: ' ' :: dF))
      = (' ' :: (dT ++ [' '])) ++ ':' :: (' ' :: dF) := by simp
  have hcol : splitAtChar ':' (' ' :: (dT ++ ' ' :: ':' :: ' ' :: dF))
      = some (' ' :: (dT ++ [' ']), ' ' :: dF) := by
    rw [hcolform]
    exact splitAtChar_append ':' _ _ (by simp +decide [hdT])
  simp only [cmdIfCore, hsA, hsC, hsB, hq, hcol, hA]

/-- **C7 (amended)**: for a well-formed `-if A COND B ? DESTT : DESTF` line
the comparison is evaluated with signed semantics on the `get_if_operand`
values and, on a true result, the dispatcher is re-entered with DESTT trimmed
of surrounding whitespace exactly when the trimmed DESTT is non-empty; on a
false result DESTF is trimmed of *leading* whitespace only (trailing
whitespace is preserved) and dispatched exactly when non-empty; with no `:`
the false branch is empty (silent) and DESTT is leading-trimmed only; an
unknown COND yields `COND?`; a missing `?` yields `Bad '?'`; a malformed A
operand yields `Bad A` — all errors without dispatch. -/
theorem C7_if_semantics :
    (∀ (regs : List Int) (ta c tb dT dF : List Char) (a b : Int),
      ta ≠ [] → ta.length ≤ 15 → (∀ x ∈ ta, cIsSpace x = false) → '?' ∉ ta →
      c ≠ [] → c.length ≤ 2 → (∀ x ∈ c, cIsSpace x = false) → '?' ∉ c →
      tb ≠ [] → tb.length ≤ 15 → (∀ x ∈ tb, cIsSpace x = false) → '?' ∉ tb →
      ':' ∉ dT → dF.length ≤ 63 →
      get_if_operand regs ta = some a → get_if_operand regs tb = some b →
      cmdIfCore regs
          (ta ++ ' ' :: (c ++ ' ' :: (tb ++ ' ' :: '?' :: ' ' :: (dT ++ ' ' :: ':' :: ' ' :: dF))))
        = (if c.headD ' ' = '>' || c.headD ' ' = '<' || c.headD ' ' = '=' then
            (if (if c.headD ' ' = '>' then a > b else if c.headD ' ' = '<' then a < b else a = b)
             then (if trimC dT ≠ [] then IfR.go (trimC dT) else IfR.silent)
             else (if dF.dropWhile cIsSpace ≠ [] then IfR.go (dF.dropWhile cIsSpace)
                   else IfR.silent))
           else IfR.err ("COND?\r\n".data))) ∧
    (∀ (regs : List Int) (ta c tb dT : List Char) (a b : Int),
      ta ≠ [] → ta.length ≤ 15 → (∀ x ∈ ta, cIsSpace x = false) → '?' ∉ ta →
      c ≠ [] → c.length ≤ 2 → (∀ x ∈ c, cIsSpace x = false) → '?' ∉ c →
      tb ≠ [] → tb.length ≤ 15 → (∀ x ∈ tb, cIsSpace x = false) → '?' ∉ tb →
      ':' ∉ dT → dT.length ≤ 62 →
      get_if_operand regs ta = some a → get_if_operand regs tb = some b →
      cmdIfCore regs (ta ++ ' ' :: (c ++ ' ' :: (tb ++ ' ' :: '?' :: ' ' :: dT)))
        = (if c.headD ' ' = '>' || c.headD ' ' = '<' || c.headD ' ' = '=' then
            (if (if c.headD ' ' = '>' then a > b else if c.headD ' ' = '<' then a < b else a = b)
             then (if dT.dropWhile cIsSpace ≠ [] then IfR.go (dT.dropWhile cIsSpace)
                   else IfR.silent)
             else IfR.silent)
           else IfR.err ("COND?\r\n".data))) ∧
    (∀ (regs : List Int) (args t1 r1 t2 r2 t3 r3 : List Char),
      scanTok 15 args = some (t1, r1) → scanTok 2 r1 = some (t2, r2) →
      scanTok 15 r2 = some (t3, r3) → '?' ∉ args →
      cmdIfCore regs args = IfR.err ("Bad '?' in -if\r\n".data)) ∧
    (∀ (regs : List Int) (ta c tb dT dF : List Char),
      ta ≠ [] → ta.length ≤ 15 → (∀ x ∈ ta, cIsSpace x = false) → '?' ∉ ta →
      c ≠ [] → c.length ≤ 2 → (∀ x ∈ c, cIsSpace x = false) → '?' ∉ c →
      tb ≠ [] → tb.length ≤ 15 → (∀ x ∈ tb, cIsSpace x = false) → '?' ∉ tb →
      ':' ∉ dT →
      get_if_operand regs ta = none →
      cmdIfCore regs
          (ta ++ ' ' :: (c ++ ' ' :: (tb ++ ' ' :: '?' :: ' ' :: (dT ++ ' ' :: ':' :: ' ' :: dF))))
        = IfR.err ("Bad A\r\n".data)) :=
  ⟨fun regs ta c tb dT dF a b h1 h2 h3 h4 h5 h6 h7 h8 h9 h10 h11 h12 h13 h14 hA hB =>
      cmdIf_colon_form regs ta c tb dT dF a b h1 h2 h3 h4 h5 h6 h7 h8 h9 h10 h11 h12 h13 h14 hA hB,
   fun regs ta c tb dT a b h1 h2 h3 h4 h5 h6 h7 h8 h9 h10 h11 h12 h13 h14 hA hB =>
      cmdIf_nocolon_form regs ta c tb dT a b h1 h2 h3 h4 h5 h6 h7 h8 h9 h10 h11 h12 h13 h14 hA hB,
   fun regs args t1 r1 t2 r2 t3 r3 hs1 hs2 hs3 hq =>
      cmdIf_no_qmark regs args t1 r1 t2 r2 t3 r3 hs1 hs2 hs3 hq,
   fun regs ta c tb dT dF h1 h2 h3 h4 h5 h6 h7 h8 h9 h10 h11 h12 h13 hA =>
      cmdIf_badA regs ta c tb dT dF h1 h2 h3 h4 h5 h6 h7 h8 h9 h10 h11 h12 h13 hA⟩

/-- Closed instance of `C7_if_semantics`: with register 1 = 10,
`-if r1 > #5 ? -print hi : -print lo` dispatches `-print hi`; a line with no
`?` errors out with no dispatch; `-if #z = #1 ? x : y` errors `Bad A`. -/
theorem C7_if_semantics_witness :
    cmdIfCore ((List.replicate 32 0).set 1 10) ("r1 > #5 ? -print hi : -print lo".data)
      = IfR.go ("-print hi".data) ∧
    cmdIfCore (List.replicate 32 0) ("#1 = #2 -print y".data)
      = IfR.err ("Bad '?' in -if\r\n".data) ∧
    cmdIfCore (List.replicate 32 0) ("#z = #1 ? -print a : -print b".data)
      = IfR.err ("Bad A\r\n".data) := by
  refine ⟨?_, ?_, ?_⟩
  · have h := C7_if_semantics.1 ((List.replicate 32 0).set 1 10) ("r1".data) (">".data)
      ("#5".data) ("-print hi".data) ("-print lo".data) 10 5 (by decide) (by decide)
      (by decide) (by decide) (by decide) (by decide) (by decide) (by decide) (by decide)
      (by decide) (by decide) (by decide) (by decide) (by decide) (by decide) (by decide)
    exact h.trans (by decide)
  · exact C7_if_semantics.2.2.1 (List.replicate 32 0) ("#1 = #2 -print y".data)
      ("#1".data) (" = #2 -print y".data) ("=".data) (" #2 -print y".data)
      ("#2".data) (" -print y".data) (by decide) (by decide) (by decide) (by decide)
  · have h := C7_if_semantics.2.2.2 (List.replicate 32 0) ("#z".data) ("=".data)
      ("#1".data) ("-print a".data) ("-print b".data) (by decide) (by decide)
      (by decide) (by decide) (by decide) (by decide) (by decide) (by decide) (by decide)
      (by decide) (by decide) (by decide) (by decide) (by decide)
    exact h

/-! ## Interpreter state and the remaining handlers -/

/-- The shared mutable state of the shell core: register bank, script store,
callback and ticker tables, and the unknown-command error counter (the only
counter incremented from dispatch context; the overflow counter belongs to
the out-of-scope line editor and the two GPIO counters are never incremented
in this version). -/
structure St where
  regs : List Int
  scripts : List (List Char)
  cbs : List CbEntry
  tickers : List TickerEntry
  errUnknown : Nat
  deriving DecidableEq, Repr

/-- Start-of-process state: everything zeroed / empty / inactive. -/
def initSt : St :=
  { regs := List.replicate 32 0, scripts := List.replicate 64 [],
    cbs := List.replicate 3 ⟨false, 0, []⟩,
    tickers := List.replicate 16 ⟨false, 0, 0, 0, [], 0⟩, errUnknown := 0 }

/-- Read `scriptLines[i]`.  An out-of-range index is undefined behaviour in
the C (it reads adjacent memory); the model returns the empty line, and every
access is separately recorded as an event carrying the raw index. -/
def slotG (scripts : List (List Char)) (i : Int) : List Char :=
  if 0 ≤ i ∧ i < 64 then scripts.getD i.toNat [] else []

/-- Write `scriptLines[i]`.  An out-of-range index is undefined behaviour in
the C (it overwrites adjacent memory); the model leaves the table unchanged,
and the access event records the violation. -/
def slotSet (scripts : List (List Char)) (i : Int) (v : List Char) :
    List (List Char) :=
  if 0 ≤ i ∧ i < 64 then scripts.set i.toNat v else scripts

/-- `snprintf(buf, ..., "%2d | %s\r\n", line, ...)` of `print_script_line`. -/
def showLineMsg (i : Int) (s : List Char) : List Char :=
  (if 0 ≤ i ∧ i < 10 then ' ' :: decStr i else decStr i) ++ (" | ".data) ++
    (if s = [] then "<empty>".data else s) ++ crlf

/-- The slot indices visited by the execute loop `for (i = idx; i < 64 ...)`. -/
def idxList (idx : Int) : List Int :=
  if idx < 64 then (List.range (64 - idx).toNat).map (fun k => idx + k) else []

/-- The script-execute loop: read the current slot (event recorded), stop at
the first empty line, otherwise copy it and re-enter the dispatcher (`step`),
continuing from the dispatcher-updated state. -/
def scriptLoop (step : St → List Char → St × List Ev) :
    List Int → St → St × List Ev
  | [], st => (st, [])
  | i :: rest, st =>
    let s := slotG st.scripts i
    if s = [] then (st, [Ev.slotRead i])
    else
      let r1 := step st s
      let r2 := scriptLoop step rest r1.1
      (r2.1, Ev.slotRead i :: r1.2 ++ r2.2)

/-- `cmd_script`: list / show / write / execute / clear.  Only `show`
(`print_script_line`) validates the index; `write`, `execute` and `clear`
use it unchecked, exactly as the source does. -/
def cmd_script (step : St → List Char → St × List Ev) (st : St) (args : List Char) :
    St × List Ev :=
  if args = [] then (st, [Ev.scriptsDump])
  else
    let a1 := args.dropWhile (· == ' ')
    let idx : Int := atoi a1
    let a2 := a1.dropWhile (fun c => !cIsSpace c)
    let a3 := a2.dropWhile (· == ' ')
    if a3 = [] then
      if idx < 0 ∨ 64 ≤ idx then (st, [Ev.out ("Bad line\r\n".data)])
      else (st, [Ev.slotRead idx, Ev.out (showLineMsg idx (slotG st.scripts idx))])
    else if a3.headD ' ' = 'w' then
      let a4 := (a3.dropWhile (fun c => !cIsSpace c)).dropWhile (· == ' ')
      ({ st with scripts := slotSet st.scripts idx (a4.take 127) },
        [Ev.slotWrite idx, Ev.out ("Script ".data), Ev.out (decStr idx),
          Ev.out (" loaded.\r\n".data)])
    else if a3.headD ' ' = 'x' then
      scriptLoop step (idxList idx) st
    else if a3.headD ' ' = 'c' then
      ({ st with scripts := slotSet st.scripts idx [] },
        [Ev.slotWrite idx, Ev.out ("Script ".data), Ev.out (decStr idx),
          Ev.out (" cleared.\r\n".data)])
    else (st, [Ev.out ("Usage: -script [line] [w|x|c] [payload]\r\n".data)])

/-- `cmd_callback`: list, or parse `idx count -payload`; count 0 disables. -/
def cmd_callback (st : St) (args : List Char) : St × List Ev :=
  if args = [] then (st, [Ev.cbDump])
  else
    let a1 := args.dropWhile (· == ' ')
    let idx : Int := atoi a1
    let a2 := a1.dropWhile (fun c => !cIsSpace c)
    if idx < 0 ∨ 3 ≤ idx then (st, [Ev.out ("idx0-2\r\n".data)])
    else
      let a3 := a2.dropWhile (· == ' ')
      let cnt := atoi a3
      let a4 := (a3.dropWhile (fun c => !(c == ' '))).dropWhile (· == ' ')
      let st' := { st with cbs := cbConfigure st.cbs idx.toNat cnt a4 }
      if cnt = 0 then (st', [Ev.out ("clr\r\n".data)]) else (st', [])

/-- `cmd_ticker`: list, or parse `idx delay period count -payload`; count 0
disables.  Note the index token is skipped with `isdigit`, the others with
`isspace`, as in the source. -/
def cmd_ticker (st : St) (args : List Char) : St × List Ev :=
  if args = [] then (st, [Ev.tickerDump])
  else
    let a1 := args.dropWhile (· == ' ')
    let idx : Int := atoi a1
    let a2 := a1.dropWhile cIsDigit
    if idx < 0 ∨ 16 ≤ idx then (st, [Ev.out ("idx0-15\r\n".data)])
    else
      let a3 := a2.dropWhile (· == ' ')
      let delay := atoi a3
      let a4 := a3.dropWhile (fun c => !cIsSpace c)
      let a5 := a4.dropWhile (· == ' ')
      let period := atoi a5
      let a6 := a5.dropWhile (fun c => !cIsSpace c)
      let a7 := a6.dropWhile (· == ' ')
      let cnt := atoi a7
      let a8 := a7.dropWhile (fun c => !cIsSpace c)
      let a9 := a8.dropWhile (· == ' ')
      let st' := { st with tickers := tickerConfigure st.tickers idx.toNat delay period cnt a9 }
      if cnt = 0 then (st', [Ev.out ("clr\r\n".data)]) else (st', [])

/-- `%X` hex digit. -/
def hexChar (n : Nat) : Char :=
  if n < 10 then Char.ofNat ('0'.toNat + n) else Char.ofNat ('A'.toNat + n - 10)

/-- `snprintf(b, 11, "0x%08X", v)` of `cmd_memr`. -/
def hex8 (n : Nat) : List Char :=
  ("0x".data) ++ (List.range 8).reverse.map (fun k => hexChar (n / 16 ^ k % 16))

/-- `cmd_memr`: parse the whole argument as a hex address, check `addrOK`,
and only then read the 32-bit word (this is the one range-checked path). -/
def cmd_memr (mem : Nat → Int) (st : St) (args : List Char) : St × List Ev :=
  if args = [] then (st, [Ev.out ("need addr...\r\n".data)])
  else
    let d := (strtoul 16 args).1
    if addrOK d = false then (st, [Ev.out ("addr our of  range\r\n".data)])
    else (st, [Ev.memRead d, Ev.out (hex8 (toUInt32n (mem d))), Ev.out crlf])

/-- `cmd_gpio`: GPIO pins are external collaborators (spec declares raw
digital I/O out of the core's scope), so the body is abstracted as one event
carrying the raw arguments; it touches no core state. -/
def cmd_gpio (st : St) (args : List Char) : St × List Ev :=
  if args = [] then (st, [Ev.helpText]) else (st, [Ev.gpioOp args])

/-! ## The dispatcher `handleLine` and the recursive interpreter -/

/-- `strtok(line, " \t")` plus `strtok(NULL, "")`: skip leading separators,
cut the first token at the first space/tab (which is consumed), and hand the
raw remainder — untouched, further whitespace included — to the handler.  A
`NULL` remainder and an empty remainder are both `[]` (every handler treats
them identically). -/
def firstTok (l : List Char) : Option (List Char × List Char) :=
  let l1 := l.dropWhile (fun c => c == ' ' || c == '\t')
  match l1 with
  | [] => none
  | _ =>
    let t := l1.takeWhile (fun c => !(c == ' ' || c == '\t'))
    some (t, (l1.drop t.length).tail)

/-- The fixed, case-sensitive command table (the `strcmp` chain of
`handleLine`, in source order). -/
def route (name : List Char) : Option Cmd :=
  if name = ("help".data) then some Cmd.help
  else if name = ("about".data) then some Cmd.about
  else if name = ("gpio".data) then some Cmd.gpio
  else if name = ("timer".data) then some Cmd.timer
  else if name = ("callback".data) then some Cmd.callback
  else if name = ("ticker".data) then some Cmd.ticker
  else if name = ("error".data) then some Cmd.error
  else if name = ("print".data) then some Cmd.print
  else if name = ("memr".data) then some Cmd.memr
  else if name = ("reg".data) then some Cmd.reg
  else if name = ("script".data) then some Cmd.script
  else if name = ("rem".data) then some Cmd.rem
  else if name = ("if".data) then some Cmd.cif
  else none

/-- One handler invocation; `step` is the recursive dispatcher entry used by
`-script N x` and by a taken `-if` branch. -/
def runHandler (step : St → List Char → St × List Ev) (mem : Nat → Int) (c : Cmd)
    (st : St) (args : List Char) : St × List Ev :=
  match c with
  | Cmd.help => (st, [Ev.helpText])
  | Cmd.about => (st, [Ev.aboutText])
  | Cmd.gpio => cmd_gpio st args
  | Cmd.timer => (st, [Ev.timerOp args])
  | Cmd.callback => cmd_callback st args
  | Cmd.ticker => cmd_ticker st args
  | Cmd.error => (st, [Ev.errorDump])
  | Cmd.print => (st, [Ev.out (args ++ crlf)])
  | Cmd.memr => cmd_memr mem st args
  | Cmd.reg => let r := cmd_reg st.regs mem args; ({ st with regs := r.1 }, r.2)
  | Cmd.script => cmd_script step st args
  | Cmd.rem => (st, [])
  | Cmd.cif =>
    match cmdIfCore st.regs args with
    | IfR.err m => (st, [Ev.out m])
    | IfR.silent => (st, [])
    | IfR.go d => step st d

/-- `handleLine`, fuelled for the (unbounded, §9) recursion: an empty line is
ignored; a missing `-` marker or an unmatched name counts an unknown command,
emits the diagnostic and invokes no handler; otherwise exactly one handler
runs with the untouched argument remainder. -/
def interp : Nat → (Nat → Int) → St → List Char → St × List Ev
  | 0, _, st, _ => (st, [Ev.fuelOut])
  | f + 1, mem, st, line =>
    match firstTok line with
    | none => (st, [])
    | some (tok, args) =>
      if tok.headD ' ' ≠ '-' then
        ({ st with errUnknown := st.errUnknown + 1 },
          [Ev.out ("?? unknown (expected leading '-')\r\n".data)])
      else
        match route tok.tail with
        | some c =>
          let r := runHandler (fun s l => interp f mem s l) mem c st args
          (r.1, Ev.handler c args :: r.2)
        | none =>
          ({ st with errUnknown := st.errUnknown + 1 }, [Ev.out ("?? unknown\r\n".data)])

/-- `execPayload`: the payload executor — a non-empty stored string shorter
than the 128-byte scratch buffer is copied and dispatched; the dispatch
operates on the copy (the value `p`), never on live entry storage. -/
def execPayload (step : St → List Char → St × List Ev) (st : St) (p : List Char) :
    St × List Ev :=
  if p ≠ [] ∧ p.length < 128 then step st p else (st, [])

/-- Service of one observed callback trigger (`mainThread` lines 751-761 for
entry `k`): dispatch the payload read at fire time, then apply the
repeat-count policy to the entry as it stands *after* the payload ran. -/
def serviceCb (step : St → List Char → St × List Ev) (st : St) (k : Nat) :
    St × List Ev :=
  let e := st.cbs.getD k ⟨false, 0, []⟩
  if e.active then
    let r := execPayload step st e.payload
    let e1 := r.1.cbs.getD k ⟨false, 0, []⟩
    let e2 :=
      if 0 < e1.remaining ∧ e1.remaining - 1 = 0 then
        { e1 with remaining := 0, active := false }
      else if 0 < e1.remaining then { e1 with remaining := e1.remaining - 1 }
      else e1
    ({ r.1 with cbs := r.1.cbs.set k e2 }, r.2)
  else (st, [])

/-- One ticker entry's advance inside the sweep (`mainThread` lines 768-782):
store the decremented countdown, fire when it is zero by dispatching the
payload read at fire time, then apply the count policy / period reload to the
entry as it stands after the payload ran. -/
def serviceTickerStep (step : St → List Char → St × List Ev) (st : St) (i : Nat) :
    St × List Ev :=
  let e := st.tickers.getD i ⟨false, 0, 0, 0, [], 0⟩
  if e.active then
    let tl := if 0 < e.ticks_left then e.ticks_left - 1 else e.ticks_left
    let st1 := { st with tickers := st.tickers.set i { e with ticks_left := tl } }
    if tl = 0 then
      let r := execPayload step st1 e.payload
      let e2 := r.1.tickers.getD i ⟨false, 0, 0, 0, [], 0⟩
      let e3 :=
        if 0 < e2.count ∧ e2.count - 1 = 0 then
          { e2 with count := e2.count - 1, active := false }
        else
          { e2 with count := if 0 < e2.count then e2.count - 1 else e2.count,
                    ticks_left := e2.period_ticks }
      ({ r.1 with tickers := r.1.tickers.set i e3 }, r.2)
    else (st1, [])
  else (st, [])

def serviceTickersGo (step : St → List Char → St × List Ev) :
    List Nat → St → St × List Ev
  | [], st => (st, [])
  | i :: rest, st =>
    let r1 := serviceTickerStep step st i
    let r2 := serviceTickersGo step rest r1.1
    (r2.1, r1.2 ++ r2.2)

/-- One observed `tickerFlag`: sweep all 16 entries in index order. -/
def serviceTickers (f : Nat) (mem : Nat → Int) (st : St) : St × List Ev :=
  serviceTickersGo (fun s l => interp f mem s l) (List.range 16) st

/-- Iterate `n` observed ticker flags, collecting each sweep's events. -/
def runSweeps (f : Nat) (mem : Nat → Int) (st : St) : Nat → St × List (List Ev)
  | 0 => (st, [])
  | n + 1 =>
    let r := serviceTickers f mem st
    let rs := runSweeps f mem r.1 n
    (rs.1, r.2 :: rs.2)

example : (interp 3 (fun _ => 0) initSt ("-print hi".data)).2 =
    [Ev.handler Cmd.print ("hi".data), Ev.out ("hi\r\n".data)] := by decide
example : (interp 3 (fun _ => 0) initSt ("foo".data)).1.errUnknown = 1 := by decide
example : (interp 3 (fun _ => 0) initSt ("-frobnicate".data)).2 =
    [Ev.out ("?? unknown\r\n".data)] := by decide
example : (interp 3 (fun _ => 0) initSt ("-reg mov r1 #10".data)).1.regs.getD 1 0 = 10 := by
  decide
example : (interp 5 (fun _ => 0) initSt ("-if #1 = #1 ? -print y : -print n".data)).2 =
    [Ev.handler Cmd.cif ("#1 = #1 ? -print y : -print n".data),
     Ev.handler Cmd.print ("y".data), Ev.out ("y\r\n".data)] := by decide

/-- **C1** (code bug): `-script 70 c` — index 70 is outside `[0, 64)` — is
*not* rejected: the clear operation writes `scriptLines[70][0]` (an
out-of-bounds store, recorded as the `slotWrite 70` event) and reports
success, with no `Bad line` diagnostic; `-script 70 w TEXT` likewise writes
unchecked.  Only the show operation (`print_script_line`) validates the
index first and prints `Bad line` without touching the table. -/
theorem C1_script_index_unchecked :
    (interp 2 (fun _ => 0) initSt ("-script 70 c".data)).2
      = [Ev.handler Cmd.script ("70 c".data), Ev.slotWrite 70,
          Ev.out ("Script ".data), Ev.out ("70".data), Ev.out (" cleared.\r\n".data)] ∧
    Ev.slotWrite 70 ∈ (interp 2 (fun _ => 0) initSt ("-script 70 c".data)).2 ∧
    Ev.out ("Bad line\r\n".data) ∉ (interp 2 (fun _ => 0) initSt ("-script 70 c".data)).2 ∧
    Ev.slotWrite 70 ∈ (interp 2 (fun _ => 0) initSt ("-script 70 w -print hi".data)).2 ∧
    (interp 2 (fun _ => 0) initSt ("-script 70".data)).2
      = [Ev.handler Cmd.script ("70".data), Ev.out ("Bad line\r\n".data)] := by decide

/-- **C8**: dispatcher characterisation.  An empty line is ignored; a first
token without the `-` marker increments the unknown-command counter, emits
the diagnostic and invokes no handler; a marker-stripped token matching no
table entry does the same with the short diagnostic; a matching token runs
exactly the matched handler, once, with the untouched argument remainder
(the events being the `handler` marker followed by that one handler's
events, the state being that one handler's result). -/
theorem C8_dispatch_characterisation :
    (∀ (f : Nat) (mem : Nat → Int) (st : St) (line : List Char),
      firstTok line = none → interp (f + 1) mem st line = (st, [])) ∧
    (∀ (f : Nat) (mem : Nat → Int) (st : St) (line tok args : List Char),
      firstTok line = some (tok, args) → tok.headD ' ' ≠ '-' →
      interp (f + 1) mem st line
        = ({ st with errUnknown := st.errUnknown + 1 },
            [Ev.out ("?? unknown (expected leading '-')\r\n".data)])) ∧
    (∀ (f : Nat) (mem : Nat → Int) (st : St) (line tok args : List Char),
      firstTok line = some (tok, args) → tok.headD ' ' = '-' → route tok.tail = none →
      interp (f + 1) mem st line
        = ({ st with errUnknown := st.errUnknown + 1 },
            [Ev.out ("?? unknown\r\n".data)])) ∧
    (∀ (f : Nat) (mem : Nat → Int) (st : St) (line tok args : List Char) (c : Cmd),
      firstTok line = some (tok, args) → tok.headD ' ' = '-' → route tok.tail = some c →
      interp (f + 1) mem st line
        = ((runHandler (fun s l => interp f mem s l) mem c st args).1,
            Ev.handler c args ::
              (runHandler (fun s l => interp f mem s l) mem c st args).2)) := by
  refine ⟨?_, ?_, ?_, ?_⟩
  · intro f mem st line hft
    simp only [interp, hft]
  · intro f mem st line tok args hft h
    simp only [interp, hft]
    rw [if_pos h]
  · intro f mem st line tok args hft h hr
    simp only [interp, hft, hr]
    rw [if_neg (not_ne_iff.mpr h)]
  · intro f mem st line tok args c hft h hr
    simp only [interp, hft, hr]
    rw [if_neg (not_ne_iff.mpr h)]

/-- Closed instance of `C8_dispatch_characterisation`: `foo` (no marker) and
`-frobnicate` (unknown name) each bump the counter by one with a diagnostic
and no handler event; `-print hi` dispatches exactly the print handler with
the untouched remainder `hi`. -/
theorem C8_dispatch_characterisation_witness :
    interp 3 (fun _ => 0) initSt ("foo".data)
      = ({ initSt with errUnknown := initSt.errUnknown + 1 },
          [Ev.out ("?? unknown (expected leading '-')\r\n".data)]) ∧
    interp 3 (fun _ => 0) initSt ("-frobnicate".data)
      = ({ initSt with errUnknown := initSt.errUnknown + 1 },
          [Ev.out ("?? unknown\r\n".data)]) ∧
    interp 3 (fun _ => 0) initSt ("-print hi".data)
      = ((runHandler (fun s l => interp 2 (fun _ => 0) s l) (fun _ => 0) Cmd.print initSt
            ("hi".data)).1,
          Ev.handler Cmd.print ("hi".data) ::
            (runHandler (fun s l => interp 2 (fun _ => 0) s l) (fun _ => 0) Cmd.print initSt
              ("hi".data)).2) :=
  ⟨C8_dispatch_characterisation.2.1 2 (fun _ => 0) initSt ("foo".data) ("foo".data) []
      (by decide) (by decide),
   C8_dispatch_characterisation.2.2.1 2 (fun _ => 0) initSt ("-frobnicate".data)
      ("-frobnicate".data) [] (by decide) (by decide) (by decide),
   C8_dispatch_characterisation.2.2.2 2 (fun _ => 0) initSt ("-print hi".data)
      ("-print".data) ("hi".data) Cmd.print (by decide) (by decide) (by decide)⟩

/-- Script table for the C9 self-overwrite demonstration: slot 3 rewrites
itself, slot 4 prints. -/
def demoScripts : List (List Char) :=
  ((List.replicate 64 []).set 3 ("-script 3 w -print bye".data)).set 4 ("-print four".data)

/-- State with the self-overwriting script installed. -/
def demoSt : St := { initSt with scripts := demoScripts }

/-- State with callback 0 armed with a payload that re-arms callback 0. -/
def demoCbSt : St :=
  { initSt with
    cbs := (List.replicate 3 ⟨false, 0, []⟩).set 0 ⟨true, 2, "-callback 0 5 -print new".data⟩ }

/-- State with script slot 0 holding `-print a` (witness). -/
def witScriptSt : St :=
  { initSt with scripts := (List.replicate 64 []).set 0 ("-print a".data) }

/-- State with callback 0 armed with `-print a` (witness). -/
def witCbSt : St :=
  { initSt with cbs := (List.replicate 3 ⟨false, 0, []⟩).set 0 ⟨true, 3, "-print a".data⟩ }

/-- **C9**: every payload execution dispatches a value captured from the
stored entry *before* the dispatch, so the dispatched command can mutate the
stored entry without changing the line being interpreted.  (The C guarantees
this by copying into a private scratch buffer — `execPayload`'s `payloadBuf`,
`cmd_script`'s `buf` — before calling `handleLine`, which would otherwise
`strtok`-mutate and possibly overwrite the live entry.  In the value-semantic
model the copy is the captured list value; the theorem states the observable
consequence.)  Conjuncts: (1) a script-execute iteration dispatches the slot
content read at iteration start and continues from the dispatcher-updated
state; (2) a callback firing dispatches the payload read at fire time, even
though the count policy afterwards reads the post-dispatch entry; (3) a
script line that overwrites its own slot still executes to completion as the
old text (its success output appears) while the slot ends up holding the new
text and the loop continues from the updated table; (4) a callback payload
that re-arms its own entry is itself still executed as the old text, and the
post-dispatch decrement applies to the freshly written count. -/
theorem C9_payload_copy_semantics :
    (∀ (step : St → List Char → St × List Ev) (i : Int) (rest : List Int) (st : St),
      slotG st.scripts i ≠ [] →
      scriptLoop step (i :: rest) st
        = ((scriptLoop step rest (step st (slotG st.scripts i)).1).1,
            Ev.slotRead i :: (step st (slotG st.scripts i)).2 ++
              (scriptLoop step rest (step st (slotG st.scripts i)).1).2)) ∧
    (∀ (step : St → List Char → St × List Ev) (st : St) (k : Nat),
      (st.cbs.getD k ⟨false, 0, []⟩).active = true →
      (serviceCb step st k).2
        = (execPayload step st (st.cbs.getD k ⟨false, 0, []⟩).payload).2) ∧
    ((interp 3 (fun _ => 0) demoSt ("-script 3 x".data)).2
      = [Ev.handler Cmd.script ("3 x".data),
          Ev.slotRead 3, Ev.handler Cmd.script ("3 w -print bye".data), Ev.slotWrite 3,
          Ev.out ("Script ".data), Ev.out ("3".data), Ev.out (" loaded.\r\n".data),
          Ev.slotRead 4, Ev.handler Cmd.print ("four".data), Ev.out ("four\r\n".data),
          Ev.slotRead 5] ∧
      slotG (interp 3 (fun _ => 0) demoSt ("-script 3 x".data)).1.scripts 3
        = "-print bye".data ∧
      slotG demoSt.scripts 3 = "-script 3 w -print bye".data) ∧
    (serviceCb (fun s l => interp 3 (fun _ => 0) s l) demoCbSt 0
      = ({ initSt with
            cbs := (List.replicate 3 ⟨false, 0, []⟩).set 0 ⟨true, 4, "-print new".data⟩ },
          [Ev.handler Cmd.callback ("0 5 -print new".data)])) := by
  refine ⟨?_, ?_, by decide, by decide⟩
  · intro step i rest st hne
    simp only [scriptLoop, if_neg hne]
  · intro step st k ha
    simp only [serviceCb, ha, if_true]

/-- Closed instance of `C9_payload_copy_semantics`: one loop iteration over
slot 0 holding `-print a` dispatches exactly that stored value; a callback
firing dispatches exactly its stored payload. -/
theorem C9_payload_copy_semantics_witness :
    scriptLoop (fun s l => interp 2 (fun _ => 0) s l) [0] witScriptSt
      = ((scriptLoop (fun s l => interp 2 (fun _ => 0) s l) []
            (interp 2 (fun _ => 0) witScriptSt ("-print a".data)).1).1,
          Ev.slotRead 0 :: (interp 2 (fun _ => 0) witScriptSt ("-print a".data)).2 ++
            (scriptLoop (fun s l => interp 2 (fun _ => 0) s l) []
              (interp 2 (fun _ => 0) witScriptSt ("-print a".data)).1).2) ∧
    (serviceCb (fun s l => interp 2 (fun _ => 0) s l) witCbSt 0).2
      = (execPayload (fun s l => interp 2 (fun _ => 0) s l) witCbSt ("-print a".data)).2 := by
  constructor
  · have h := C9_payload_copy_semantics.1 (fun s l => interp 2 (fun _ => 0) s l) 0 []
      witScriptSt (by decide)
    exact h.trans (by decide)
  · have h := C9_payload_copy_semantics.2.1 (fun s l => interp 2 (fun _ => 0) s l)
      witCbSt 0 (by decide)
    exact h.trans (by decide)

/-- The entry still active after a fire has its countdown reloaded from the
period, so (by `firstFire_pos`) its next fire comes `max period 1` observed
ticks later. -/
lemma afterFire_reload {e : TickerEntry} (ha : e.active = true)
    (hf : (tickerTick e).2 = true) (ha' : (tickerTick e).1.active = true) :
    (tickerTick e).1.ticks_left = e.period_ticks := by
  rcases Nat.lt_or_ge e.ticks_left 2 with htl | htl
  · rw [tickerTick_fire ha (by omega)] at ha' ⊢
    by_cases hc : 0 < e.count ∧ e.count - 1 = 0
    · rw [afterFire, if_pos hc] at ha'
      simp at ha'
    · rw [afterFire, if_neg hc]
  · rw [tickerTick_countdown ha htl] at hf
    simp at hf

set_option maxRecDepth 8000 in
set_option maxHeartbeats 2000000 in
/-- **C5 (amended)**: `-ticker 0 0 10 3 -print x` (run through the full
interpreter and the full 16-entry sweep) fires on the 1st, 11th and 21st
observed tick and then becomes inactive; in general a delay of zero makes an
armed entry fire on the very first observed tick, and after each firing a
still-active entry next fires `max(period, 1)` observed ticks later (a
period of zero behaves as period one, firing on every subsequent tick). -/
theorem C5_ticker_schedule :
    (firePositions ((runSweeps 3 (fun _ => 0)
        (interp 3 (fun _ => 0) initSt ("-ticker 0 0 10 3 -print x".data)).1 25).2.map
        (fun evs => evs.contains (Ev.out ("x\r\n".data)))) = [1, 11, 21] ∧
      (interp 3 (fun _ => 0) initSt ("-ticker 0 0 10 3 -print x".data)).1.tickers.getD 0
          ⟨false, 0, 0, 0, [], 0⟩
        = armTicker 0 10 3 ("-print x".data) ∧
      (runTicksB (armTicker 0 10 3 ("-print x".data)) 21).1.active = false) ∧
    (∀ e : TickerEntry, e.active = true → e.ticks_left = 0 → (tickerTick e).2 = true) ∧
    (∀ (e : TickerEntry) (n : Nat), e.active = true → (tickerTick e).2 = true →
      (tickerTick e).1.active = true → max e.period_ticks 1 ≤ n →
      (firePositions (runTicksB (tickerTick e).1 n).2).head?
        = some (max e.period_ticks 1)) := by
  refine ⟨by decide, ?_, ?_⟩
  · intro e ha ht
    rw [tickerTick_fire ha (by omega)]
  · intro e n ha hf ha' hn
    have hr := afterFire_reload ha hf ha'
    have := firstFire_pos (e := (tickerTick e).1) (n := n) ha' (by rw [hr]; exact hn)
    rwa [hr] at this

/-- Closed instance of `C5_ticker_schedule`: an armed entry with countdown 0
fires on the tick at hand, and after a fire that leaves it active (period 10)
the next fire comes exactly 10 ticks later. -/
theorem C5_ticker_schedule_witness :
    (tickerTick ⟨true, 0, 10, 3, [], 0⟩).2 = true ∧
    (firePositions (runTicksB (tickerTick ⟨true, 0, 10, 3, [], 0⟩).1 12).2).head?
      = some (max 10 1) :=
  ⟨C5_ticker_schedule.2.1 ⟨true, 0, 10, 3, [], 0⟩ rfl rfl,
   C5_ticker_schedule.2.2 ⟨true, 0, 10, 3, [], 0⟩ 12 rfl (by decide) (by decide)
     (by decide)⟩
